import Mathlib

/-!
Verification of the HoneyBear-Folio ledger core (`src/app/src-tauri/src/lib.rs`).

The relational store is embedded shallowly: the `accounts` and `transactions`
tables become lists kept in rowid (insertion) order, `f64` amounts become exact
rationals, SQL row ids become `Int` counters, and every fallible database
operation returns `Except String` where an error means the enclosing SQLite
transaction rolled back (the caller keeps the previous state).
-/

/-- `f64::EPSILON` (2⁻⁵²), the threshold used by the Rust code to decide
whether a balance delta is worth applying. -/
def eps : ℚ := 1 / 2 ^ 52

/-- Row of the `accounts` table (`struct Account` in lib.rs; the derived
`exchange_rate` field is not stored and is omitted from the stored row). -/
structure Account where
  id : Int
  name : String
  balance : ℚ
  currency : Option String
deriving Repr, DecidableEq

/-- Row of the `transactions` table (`struct Transaction` in lib.rs plus the
`linked_tx_id` column). -/
structure Txn where
  id : Int
  account_id : Int
  date : String
  payee : String
  notes : Option String
  category : Option String
  amount : ℚ
  ticker : Option String
  shares : Option ℚ
  price_per_share : Option ℚ
  fee : Option ℚ
  currency : Option String
  linked_tx_id : Option Int
deriving Repr, DecidableEq

/-- The persistent store: both tables in rowid order, plus the next rowid each
table will hand out (`last_insert_rowid`). -/
structure DB where
  accounts : List Account
  txns : List Txn
  nextAccId : Int
  nextTxId : Int
deriving Repr, DecidableEq

/-- `UPDATE accounts SET balance = balance + d WHERE id = aid`. -/
def updateBalance (accs : List Account) (aid : Int) (d : ℚ) : List Account :=
  accs.map (fun a => if a.id = aid then { a with balance := a.balance + d } else a)

/-- `UPDATE transactions SET … WHERE id = i`, with `f` the SET clause. -/
def mapIfId (txns : List Txn) (i : Int) (f : Txn → Txn) : List Txn :=
  txns.map (fun t => if t.id = i then f t else t)

/-- `DELETE FROM transactions WHERE id = i`. -/
def eraseId (txns : List Txn) (i : Int) : List Txn :=
  txns.filter (fun t => ¬ t.id = i)

/-- Sum of the amounts of the transactions owned by account `aid`. -/
def txSum (txns : List Txn) (aid : Int) : ℚ :=
  (txns.map (fun t => if t.account_id = aid then t.amount else 0)).sum

/-- ASCII lower-casing of one character, the fold SQLite `LOWER` applies. -/
def lowerChar (c : Char) : Char :=
  if 65 ≤ c.toNat ∧ c.toNat ≤ 90 then Char.ofNat (c.toNat + 32) else c

/-- SQLite `LOWER`, which folds ASCII letters only. -/
def sqlLower (s : String) : String := ⟨s.data.map lowerChar⟩

/-- ASCII whitespace, the cases of Rust `str::trim` exercised here. -/
def isWsChar (c : Char) : Bool := c = ' ' ∨ c = '\t' ∨ c = '\n' ∨ c = '\r'

/-- Drop leading whitespace characters. -/
def dropLeadingWs : List Char → List Char
  | [] => []
  | c :: cs => if isWsChar c then dropLeadingWs cs else c :: cs

/-- Rust `str::trim` (restricted to ASCII whitespace): drop trailing then
leading whitespace. -/
def strTrim (s : String) : String :=
  ⟨dropLeadingWs (dropLeadingWs s.data.reverse).reverse⟩

/-- `create_account_db` (lib.rs).  Trims the name, rejects empty or
case-insensitively duplicate names, inserts the account row, and synthesizes
an opening-balance transaction when `|balance| > f64::EPSILON`.  `today`
models SQLite `date('now')`. -/
def create_account_db (db : DB) (today name : String) (balance : ℚ)
    (currency : Option String) : Except String (DB × Account) :=
  let name_trimmed := strTrim name
  if name_trimmed = "" then
    .error "Account name cannot be empty or whitespace-only"
  else if (db.accounts.find? (fun a => sqlLower a.name = sqlLower name_trimmed)).isSome then
    .error "Account name already exists"
  else
    let id := db.nextAccId
    let acc : Account := ⟨id, name_trimmed, balance, currency⟩
    let db1 : DB := { db with accounts := db.accounts ++ [acc], nextAccId := id + 1 }
    let db2 : DB :=
      if eps < |balance| then
        { db1 with
          txns := db1.txns ++
            [⟨db1.nextTxId, id, today, "Opening Balance", some "Initial Balance",
              some "Income", balance, none, none, none, none, currency, none⟩],
          nextTxId := db1.nextTxId + 1 }
      else db1
    .ok (db2, acc)

/-- `CreateTransactionArgs` (lib.rs). -/
structure CreateTransactionArgs where
  account_id : Int
  date : String
  payee : String
  notes : Option String
  category : Option String
  amount : ℚ
  ticker : Option String
  shares : Option ℚ
  price_per_share : Option ℚ
  fee : Option ℚ
  currency : Option String
deriving Repr, DecidableEq

/-- `create_transaction_db` (lib.rs).  Detects a transfer when another account
has a name exactly equal to the payee, overrides the category to "Transfer" in
that case, inserts the row, adds the amount to the owning account, and for a
transfer inserts the mirrored counterpart row, links the two rows, and applies
the opposite amount to the target account. -/
def create_transaction_db (db : DB) (args : CreateTransactionArgs) :
    Except String (DB × Txn) :=
  let target := db.accounts.find? (fun a => a.name = args.payee ∧ ¬ a.id = args.account_id)
  let final_category := if target.isSome then some "Transfer" else args.category
  let id := db.nextTxId
  let row : Txn :=
    ⟨id, args.account_id, args.date, args.payee, args.notes, final_category,
      args.amount, args.ticker, args.shares, args.price_per_share, args.fee,
      args.currency, none⟩
  let txns1 := db.txns ++ [row]
  let accounts1 := updateBalance db.accounts args.account_id args.amount
  match target with
  | none => .ok ({ db with txns := txns1, accounts := accounts1, nextTxId := id + 1 }, row)
  | some tgt =>
    match accounts1.find? (fun a => a.id = args.account_id) with
    | none => .error "Query returned no rows"
    | some src =>
      let id2 := id + 1
      let row2 : Txn :=
        ⟨id2, tgt.id, args.date, src.name, args.notes, some "Transfer",
          -args.amount, none, none, none, none, none, none⟩
      let txns2 := txns1 ++ [row2]
      let txns3 := mapIfId txns2 id (fun t => { t with linked_tx_id := some id2 })
      let txns4 := mapIfId txns3 id2 (fun t => { t with linked_tx_id := some id })
      let accounts2 := updateBalance accounts1 tgt.id (-args.amount)
      .ok ({ db with txns := txns4, accounts := accounts2, nextTxId := id2 + 1 }, row)

/-- `UpdateTransactionArgs` (lib.rs). -/
structure UpdateTransactionArgs where
  id : Int
  account_id : Int
  date : String
  payee : String
  notes : Option String
  category : Option String
  amount : ℚ
  currency : Option String
deriving Repr, DecidableEq

/-- The SET clause of the main `UPDATE transactions` statement of
`update_transaction_db`. -/
def applyUpd (args : UpdateTransactionArgs) (t : Txn) : Txn :=
  { t with account_id := args.account_id, date := args.date, payee := args.payee,
           notes := args.notes, category := args.category, amount := args.amount,
           currency := args.currency }

/-- Counterpart resolution of `update_transaction_db`: read the row's
`linked_tx_id`; when absent, fall back to the first other transaction with
exactly matching notes and category "Transfer", and persist the symmetric
links retroactively.  Returns the counterpart id (if any) together with the
possibly re-linked transaction table. -/
def resolveCounterpart (txns1 : List Txn) (args : UpdateTransactionArgs) :
    Option Int × List Txn :=
  match (txns1.find? (fun t => t.id = args.id)).bind (fun t => t.linked_tx_id) with
  | some cid => (some cid, txns1)
  | none =>
    match args.notes with
    | none => (none, txns1)
    | some n =>
      match txns1.find?
          (fun t => t.notes = some n ∧ t.category = some "Transfer" ∧ ¬ t.id = args.id) with
      | none => (none, txns1)
      | some f =>
        let txnsA := mapIfId txns1 args.id (fun t => { t with linked_tx_id := some f.id })
        let txnsB := mapIfId txnsA f.id (fun t => { t with linked_tx_id := some args.id })
        (some f.id, txnsB)

/-- The SET clause applied to a located transfer counterpart by
`update_transaction_db` (payee becomes the new owning account's name). -/
def applyCtrUpd (args : UpdateTransactionArgs) (srcName : String) (newAmt : ℚ)
    (t : Txn) : Txn :=
  { t with date := args.date, payee := srcName, notes := args.notes,
           category := some "Transfer", amount := newAmt, currency := args.currency }

/-- `update_transaction_db` (lib.rs).  Reads the old amount/account, overwrites
the row (possibly moving it to another account), reconciles the owning
account's balance (same account: apply the diff only when it exceeds
`f64::EPSILON`; moved: two unconditional adjustments), then resolves a
transfer counterpart and, when found, rewrites it to `-amount` and applies the
counterpart diff (again epsilon-guarded) to its own account. -/
def update_transaction_db (db : DB) (args : UpdateTransactionArgs) :
    Except String DB :=
  match db.txns.find? (fun t => t.id = args.id) with
  | none => .error "Query returned no rows"
  | some old =>
    let old_amount := old.amount
    let old_account_id := old.account_id
    let txns1 := mapIfId db.txns args.id (applyUpd args)
    let accounts1 :=
      if old_account_id = args.account_id then
        let diff := args.amount - old_amount
        if eps < |diff| then updateBalance db.accounts args.account_id diff
        else db.accounts
      else
        updateBalance (updateBalance db.accounts old_account_id (-old_amount))
          args.account_id args.amount
    match resolveCounterpart txns1 args with
    | (none, txns2) => .ok { db with txns := txns2, accounts := accounts1 }
    | (some cid, txns2) =>
      match txns2.find? (fun t => t.id = cid) with
      | none => .ok { db with txns := txns2, accounts := accounts1 }
      | some ctr =>
        match accounts1.find? (fun a => a.id = args.account_id) with
        | none => .error "Query returned no rows"
        | some src =>
          let new_ctr_amount := -args.amount
          let ctr_diff := new_ctr_amount - ctr.amount
          let txns3 := mapIfId txns2 cid (applyCtrUpd args src.name new_ctr_amount)
          let accounts2 :=
            if eps < |ctr_diff| then updateBalance accounts1 ctr.account_id ctr_diff
            else accounts1
          .ok { db with txns := txns3, accounts := accounts2 }

/-- `delete_transaction_db` (lib.rs).  Deletes the row and subtracts its amount
from its account; then deletes the linked counterpart (when the reference is
present and the row still exists) or, when the reference is absent, the first
transaction with exactly matching notes and category "Transfer", subtracting
the removed counterpart's amount from its own account. -/
def delete_transaction_db (db : DB) (i : Int) : Except String DB :=
  match db.txns.find? (fun t => t.id = i) with
  | none => .error "Query returned no rows"
  | some t0 =>
    let txns1 := eraseId db.txns i
    let accounts1 := updateBalance db.accounts t0.account_id (-t0.amount)
    match t0.linked_tx_id with
    | some lid =>
      match txns1.find? (fun t => t.id = lid) with
      | none => .ok { db with txns := txns1, accounts := accounts1 }
      | some ctr =>
        .ok { db with txns := eraseId txns1 lid,
                      accounts := updateBalance accounts1 ctr.account_id (-ctr.amount) }
    | none =>
      match t0.notes with
      | none => .ok { db with txns := txns1, accounts := accounts1 }
      | some n =>
        match txns1.find? (fun t => t.notes = some n ∧ t.category = some "Transfer") with
        | none => .ok { db with txns := txns1, accounts := accounts1 }
        | some f =>
          .ok { db with txns := eraseId txns1 f.id,
                        accounts := updateBalance accounts1 f.account_id (-f.amount) }

/-- `delete_account_db` (lib.rs): delete all of the account's transactions,
then the account row. -/
def delete_account_db (db : DB) (i : Int) : Except String DB :=
  .ok { db with txns := db.txns.filter (fun t => ¬ t.account_id = i),
                accounts := db.accounts.filter (fun a => ¬ a.id = i) }

/-- `get_rate_to_usd` closure of `calculate_account_balances` (lib.rs):
1.0 for USD, else the override rate when present, else the live
`currency ++ "USD=X"` rate defaulting to 1.0. -/
def get_rate_to_usd (rates custom_rates : List (String × ℚ)) (curr : String) : ℚ :=
  if curr = "USD" then 1
  else
    match custom_rates.lookup curr with
    | some r => r
    | none => (rates.lookup (curr ++ "USD=X")).getD 1

/-- `compute_rate` closure of `calculate_account_balances` (lib.rs): 1.0 for
equal currencies; a positive direct `src ++ dst ++ "=X"` live rate verbatim;
otherwise the USD pivot `rateToUSD src / rateToUSD dst`, with 1.0 when the
destination pivot rate is exactly zero. -/
def compute_rate (src dst : String) (rates custom_rates : List (String × ℚ)) : ℚ :=
  if src = dst then 1
  else
    let pivot :=
      let r_src := get_rate_to_usd rates custom_rates src
      let r_dst := get_rate_to_usd rates custom_rates dst
      if r_dst = 0 then 1 else r_src / r_dst
    match rates.lookup (src ++ dst ++ "=X") with
    | some r => if 0 < r then r else pivot
    | none => pivot

/-- One operation of the ledger engine. -/
inductive Op where
  | createAcc (today name : String) (balance : ℚ) (currency : Option String)
  | createTx (args : CreateTransactionArgs)
  | updateTx (args : UpdateTransactionArgs)
  | deleteTx (i : Int)
  | deleteAcc (i : Int)
deriving Repr, DecidableEq

/-- Execute one operation; an error rolls the store back (state unchanged). -/
def step (db : DB) : Op → DB
  | .createAcc today name bal curr =>
    match create_account_db db today name bal curr with
    | .ok (db2, _) => db2
    | .error _ => db
  | .createTx args =>
    match create_transaction_db db args with
    | .ok (db2, _) => db2
    | .error _ => db
  | .updateTx args =>
    match update_transaction_db db args with
    | .ok db2 => db2
    | .error _ => db
  | .deleteTx i =>
    match delete_transaction_db db i with
    | .ok db2 => db2
    | .error _ => db
  | .deleteAcc i =>
    match delete_account_db db i with
    | .ok db2 => db2
    | .error _ => db

/-- Execute a sequence of operations. -/
def run (db : DB) : List Op → DB
  | [] => db
  | op :: ops => run (step db op) ops

/-- The freshly initialized store (SQLite rowids start at 1). -/
def emptyDB : DB := ⟨[], [], 1, 1⟩

/-- The spec's balance invariant: every account's stored balance equals the
sum of the amounts of the transactions it owns. -/
def balanceInv (db : DB) : Prop :=
  ∀ a ∈ db.accounts, a.balance = txSum db.txns a.id

/-! ### Helper lemmas about the table primitives -/

theorem txSum_nil (aid : Int) : txSum [] aid = 0 := rfl

theorem txSum_cons (t : Txn) (ts : List Txn) (aid : Int) :
    txSum (t :: ts) aid = (if t.account_id = aid then t.amount else 0) + txSum ts aid := by
  simp [txSum]

theorem txSum_append (xs ys : List Txn) (aid : Int) :
    txSum (xs ++ ys) aid = txSum xs aid + txSum ys aid := by
  simp [txSum]

theorem txSum_eq_zero {txns : List Txn} {aid : Int}
    (h : ∀ t ∈ txns, ¬ t.account_id = aid) : txSum txns aid = 0 := by
  induction txns with
  | nil => rfl
  | cons t ts ih =>
    rw [txSum_cons, if_neg (h t (List.mem_cons_self t ts)), ih (fun s hs => h s (List.mem_cons_of_mem t hs))]
    ring

theorem mapIfId_nil (i : Int) (f : Txn → Txn) : mapIfId [] i f = [] := rfl

theorem mapIfId_cons (t : Txn) (ts : List Txn) (i : Int) (f : Txn → Txn) :
    mapIfId (t :: ts) i f = (if t.id = i then f t else t) :: mapIfId ts i f := rfl

theorem mapIfId_of_not_mem {txns : List Txn} {i : Int} {f : Txn → Txn}
    (h : ∀ t ∈ txns, ¬ t.id = i) : mapIfId txns i f = txns := by
  unfold mapIfId
  rw [List.map_congr_left (fun t ht => if_neg (h t ht))]
  exact List.map_id txns

theorem eraseId_nil (i : Int) : eraseId [] i = [] := rfl

theorem eraseId_cons (t : Txn) (ts : List Txn) (i : Int) :
    eraseId (t :: ts) i = if t.id = i then eraseId ts i else t :: eraseId ts i := by
  unfold eraseId
  by_cases h : t.id = i
  · simp [List.filter_cons, h]
  · simp [List.filter_cons, h]

theorem eraseId_of_not_mem {txns : List Txn} {i : Int}
    (h : ∀ t ∈ txns, ¬ t.id = i) : eraseId txns i = txns := by
  unfold eraseId
  apply List.filter_eq_self.mpr
  intro t ht
  simpa using h t ht

theorem updateBalance_nil (k : Int) (d : ℚ) : updateBalance [] k d = [] := rfl

theorem updateBalance_cons (a : Account) (as : List Account) (k : Int) (d : ℚ) :
    updateBalance (a :: as) k d =
      (if a.id = k then { a with balance := a.balance + d } else a) :: updateBalance as k d := rfl

theorem updateBalance_same (accs : List Account) (k : Int) (d e : ℚ) :
    updateBalance (updateBalance accs k d) k e = updateBalance accs k (d + e) := by
  unfold updateBalance
  rw [List.map_map]
  apply List.map_congr_left
  intro a _
  by_cases h : a.id = k
  · simp [Function.comp, h, add_assoc]
  · simp [Function.comp, h]

theorem updateBalance_zero (accs : List Account) (k : Int) :
    updateBalance accs k 0 = accs := by
  unfold updateBalance
  have : ∀ a ∈ accs, (if a.id = k then { a with balance := a.balance + 0 } else a) = a := by
    intro a _
    by_cases h : a.id = k
    · subst h
      simp
    · simp [h]
  rw [List.map_congr_left this]
  exact List.map_id accs

theorem updateBalance_comm (accs : List Account) (k j : Int) (d e : ℚ) :
    updateBalance (updateBalance accs k d) j e =
      updateBalance (updateBalance accs j e) k d := by
  unfold updateBalance
  rw [List.map_map, List.map_map]
  apply List.map_congr_left
  intro a _
  by_cases hk : a.id = k
  · subst hk
    by_cases hj : a.id = j
    · subst hj
      simp [Function.comp, add_right_comm]
    · simp [Function.comp, hj, add_right_comm]
  · by_cases hj : a.id = j
    · subst hj
      simp [Function.comp, hk, add_right_comm]
    · simp [Function.comp, hk, hj]

theorem find?_id_mapIfId (txns : List Txn) (i j : Int) (f : Txn → Txn)
    (hf : ∀ t, (f t).id = t.id) :
    (mapIfId txns i f).find? (fun t => t.id = j) =
      (txns.find? (fun t => t.id = j)).map (fun t => if t.id = i then f t else t) := by
  unfold mapIfId
  rw [List.find?_map]
  have hp : ((fun t => decide (t.id = j)) ∘ fun t => if t.id = i then f t else t) =
      (fun t : Txn => decide (t.id = j)) := by
    funext t
    by_cases h : t.id = i
    · simp [Function.comp, h, hf]
    · simp [Function.comp, h]
  rw [hp]

theorem ids_mapIfId (txns : List Txn) (i : Int) (f : Txn → Txn)
    (hf : ∀ t, (f t).id = t.id) :
    (mapIfId txns i f).map Txn.id = txns.map Txn.id := by
  unfold mapIfId
  rw [List.map_map]
  apply List.map_congr_left
  intro t _
  by_cases h : t.id = i
  · simp [Function.comp, h, hf]
  · simp [Function.comp, h]

theorem txSum_mapIfId (txns : List Txn) (i aid : Int) (f : Txn → Txn) (t0 : Txn)
    (hnd : (txns.map Txn.id).Nodup) (hmem : t0 ∈ txns) (hid : t0.id = i) :
    txSum (mapIfId txns i f) aid =
      txSum txns aid - (if t0.account_id = aid then t0.amount else 0)
        + (if (f t0).account_id = aid then (f t0).amount else 0) := by
  induction txns with
  | nil => cases hmem
  | cons t ts ih =>
    rw [List.map_cons, List.nodup_cons] at hnd
    rcases List.mem_cons.mp hmem with h0 | h0
    · subst h0
      rw [mapIfId_cons, if_pos hid]
      have hts : mapIfId ts i f = ts := by
        apply mapIfId_of_not_mem
        intro t ht hti
        have h01 : t0.id = t.id := hid.trans hti.symm
        exact hnd.1 (h01 ▸ List.mem_map_of_mem Txn.id ht)
      rw [hts, txSum_cons, txSum_cons]
      ring
    · have hne : ¬ t.id = i := by
        intro hti
        apply hnd.1
        rw [hti, ← hid]
        exact List.mem_map_of_mem Txn.id h0
      rw [mapIfId_cons, if_neg hne, txSum_cons, txSum_cons, ih hnd.2 h0]
      ring

theorem txSum_eraseId (txns : List Txn) (i aid : Int) (t0 : Txn)
    (hnd : (txns.map Txn.id).Nodup) (hmem : t0 ∈ txns) (hid : t0.id = i) :
    txSum (eraseId txns i) aid =
      txSum txns aid - (if t0.account_id = aid then t0.amount else 0) := by
  induction txns with
  | nil => cases hmem
  | cons t ts ih =>
    rw [List.map_cons, List.nodup_cons] at hnd
    rcases List.mem_cons.mp hmem with h0 | h0
    · subst h0
      rw [eraseId_cons, if_pos hid]
      have hts : eraseId ts i = ts := by
        apply eraseId_of_not_mem
        intro t ht hti
        have h01 : t0.id = t.id := hid.trans hti.symm
        exact hnd.1 (h01 ▸ List.mem_map_of_mem Txn.id ht)
      rw [hts, txSum_cons]
      ring
    · have hne : ¬ t.id = i := by
        intro hti
        apply hnd.1
        rw [hti, ← hid]
        exact List.mem_map_of_mem Txn.id h0
      rw [eraseId_cons, if_neg hne, txSum_cons, txSum_cons, ih hnd.2 h0]
      ring

theorem ids_eraseId_sublist (txns : List Txn) (i : Int) :
    ((eraseId txns i).map Txn.id).Sublist (txns.map Txn.id) :=
  List.Sublist.map Txn.id (List.filter_sublist txns)

theorem nodup_ids_eraseId {txns : List Txn} {i : Int}
    (hnd : (txns.map Txn.id).Nodup) : ((eraseId txns i).map Txn.id).Nodup :=
  (ids_eraseId_sublist txns i).nodup hnd

theorem mem_eraseId {txns : List Txn} {i : Int} {t : Txn} (h : t ∈ eraseId txns i) :
    t ∈ txns ∧ ¬ t.id = i := by
  unfold eraseId at h
  have := List.of_mem_filter h
  refine ⟨List.mem_of_mem_filter h, by simpa using this⟩

theorem mem_mapIfId {txns : List Txn} {i : Int} {f : Txn → Txn} {t : Txn}
    (h : t ∈ mapIfId txns i f) : ∃ s ∈ txns, t = if s.id = i then f s else s := by
  unfold mapIfId at h
  rcases List.mem_map.mp h with ⟨s, hs, hst⟩
  exact ⟨s, hs, hst.symm⟩

theorem mem_updateBalance {accs : List Account} {k : Int} {d : ℚ} {a : Account}
    (h : a ∈ updateBalance accs k d) :
    ∃ b ∈ accs, a = if b.id = k then { b with balance := b.balance + d } else b := by
  unfold updateBalance at h
  rcases List.mem_map.mp h with ⟨b, hb, hba⟩
  exact ⟨b, hb, hba.symm⟩

theorem find?_id_updateBalance (accs : List Account) (k j : Int) (d : ℚ) :
    (updateBalance accs k d).find? (fun a => a.id = j) =
      (accs.find? (fun a => a.id = j)).map
        (fun a => if a.id = k then { a with balance := a.balance + d } else a) := by
  unfold updateBalance
  rw [List.find?_map]
  have hp : ((fun a => decide (a.id = j)) ∘
      fun a => if a.id = k then { a with balance := a.balance + d } else a) =
      (fun a : Account => decide (a.id = j)) := by
    funext a
    by_cases h : a.id = k
    · simp [Function.comp, h]
    · simp [Function.comp, h]
  rw [hp]

/-! ### Claim theorems: currency resolver -/

/-- C6: for distinct currency codes, a strictly positive direct live rate
stored under `src ++ dst ++ "=X"` is returned verbatim by `compute_rate`,
taking priority over any USD-pivot computation. -/
theorem direct_rate_priority (src dst : String) (rates custom : List (String × ℚ))
    (r : ℚ) (hne : ¬ src = dst) (hdir : rates.lookup (src ++ dst ++ "=X") = some r)
    (hpos : 0 < r) : compute_rate src dst rates custom = r := by
  unfold compute_rate
  rw [if_neg hne]
  simp only [hdir, hpos, if_pos]

/-- C6 witness: direct EURGBP rate 0.9 wins over override rates implying 0.8
via the USD pivot. -/
theorem direct_rate_priority_witness :
    compute_rate "EUR" "GBP"
      [("EURGBP=X", 9/10), ("EURUSD=X", 6/5), ("GBPUSD=X", 3/2)]
      [("EUR", 6/5), ("GBP", 3/2)] = 9/10 :=
  direct_rate_priority "EUR" "GBP" _ _ (9/10) (by decide) rfl (by norm_num)

/-- C7: with distinct currencies and no positive direct rate, `compute_rate`
returns rateToUSD(source)/rateToUSD(destination), where rateToUSD is 1.0 for
USD, else the override rate when present, else the live `c ++ "USD=X"` rate
defaulting to 1.0; and when rateToUSD(destination) is exactly zero the result
is 1.0 instead of a division by zero. -/
theorem pivot_fallback (src dst : String) (rates custom : List (String × ℚ))
    (hne : ¬ src = dst)
    (hdir : ∀ r, rates.lookup (src ++ dst ++ "=X") = some r → ¬ 0 < r) :
    (∀ c, get_rate_to_usd rates custom c =
        if c = "USD" then 1
        else match custom.lookup c with
          | some r => r
          | none => (rates.lookup (c ++ "USD=X")).getD 1) ∧
    (get_rate_to_usd rates custom dst = 0 → compute_rate src dst rates custom = 1) ∧
    (¬ get_rate_to_usd rates custom dst = 0 →
      compute_rate src dst rates custom =
        get_rate_to_usd rates custom src / get_rate_to_usd rates custom dst) := by
  refine ⟨fun c => rfl, ?_, ?_⟩
  · intro h0
    unfold compute_rate
    rw [if_neg hne]
    cases hL : rates.lookup (src ++ dst ++ "=X") with
    | none => simp [h0]
    | some r => simp [hdir r hL, h0]
  · intro h0
    unfold compute_rate
    rw [if_neg hne]
    cases hL : rates.lookup (src ++ dst ++ "=X") with
    | none => simp [h0]
    | some r => simp [hdir r hL, h0]

/-- C7 witness: no direct rate, live EURUSD = 1.2 and GBPUSD = 1.5 give
EUR→GBP = 1.2/1.5 = 0.8. -/
theorem pivot_fallback_witness :
    compute_rate "EUR" "GBP" [("EURUSD=X", 6/5), ("GBPUSD=X", 3/2)] [] = 4/5 := by
  have he : ("EUR" ++ "USD=X" : String) = "EURUSD=X" := rfl
  have hg : ("GBP" ++ "USD=X" : String) = "GBPUSD=X" := rfl
  have hb1 : (("GBPUSD=X" : String) == "EURUSD=X") = false := rfl
  have hb2 : (("GBPUSD=X" : String) == "GBPUSD=X") = true := rfl
  have hb3 : (("EURUSD=X" : String) == "EURUSD=X") = true := rfl
  have hu1 : ¬ ("GBP" : String) = "USD" := by decide
  have hu2 : ¬ ("EUR" : String) = "USD" := by decide
  have h := (pivot_fallback "EUR" "GBP" [("EURUSD=X", 6/5), ("GBPUSD=X", 3/2)] []
    (by decide) (fun r hr => by simp [List.lookup] at hr)).2.2
    (by norm_num [get_rate_to_usd, List.lookup, hg, hb1, hb2, hu1])
  rw [h]
  norm_num [get_rate_to_usd, List.lookup, he, hg, hb1, hb2, hb3, hu1, hu2]

/-! ### Claim theorems: account creation -/

/-- C8: `create_account_db` with an empty or whitespace-only trimmed name, or
with a name case-insensitively equal to an existing account's name, fails with
a validation error, and the store is left unchanged (no account row and no
transaction row inserted). -/
theorem create_account_validation (db : DB) (today name : String) (bal : ℚ)
    (curr : Option String)
    (h : strTrim name = "" ∨ ∃ a ∈ db.accounts, sqlLower a.name = sqlLower (strTrim name)) :
    (∃ msg, create_account_db db today name bal curr = .error msg) ∧
    step db (.createAcc today name bal curr) = db := by
  have herr : ∃ msg, create_account_db db today name bal curr = .error msg := by
    unfold create_account_db
    by_cases he : strTrim name = ""
    · exact ⟨_, by rw [if_pos he]⟩
    · rcases h with h | ⟨a, ha, haeq⟩
      · exact absurd h he
      · have hs : (db.accounts.find? (fun a => sqlLower a.name = sqlLower (strTrim name))).isSome = true := by
          rw [List.find?_isSome]
          exact ⟨a, ha, by simp [haeq]⟩
        exact ⟨_, by rw [if_neg he, if_pos hs]⟩
  refine ⟨herr, ?_⟩
  rcases herr with ⟨msg, hmsg⟩
  simp only [step, hmsg]

/-- C8 witness: creating "  alpha " when "Alpha" exists fails and changes
nothing. -/
theorem create_account_validation_witness :
    (∃ msg, create_account_db ⟨[⟨1, "Alpha", 5, none⟩], [], 2, 1⟩ "d" "  alpha " 3 none
        = .error msg) ∧
    step ⟨[⟨1, "Alpha", 5, none⟩], [], 2, 1⟩ (.createAcc "d" "  alpha " 3 none)
      = ⟨[⟨1, "Alpha", 5, none⟩], [], 2, 1⟩ :=
  create_account_validation ⟨[⟨1, "Alpha", 5, none⟩], [], 2, 1⟩ "d" "  alpha " 3 none
    (Or.inr ⟨⟨1, "Alpha", 5, none⟩, by decide⟩)

/-- C10: a non-zero opening balance whose absolute value does not exceed
`f64::EPSILON` creates the account row with its balance set to that opening
balance but synthesizes no opening-balance transaction, so the stored balance
differs from the (empty) sum of the account's transactions. -/
theorem create_account_subepsilon (db : DB) (today name : String) (bal : ℚ)
    (curr : Option String)
    (hne : ¬ bal = 0) (hsmall : |bal| ≤ eps)
    (hname : ¬ strTrim name = "")
    (hdup : ∀ a ∈ db.accounts, ¬ sqlLower a.name = sqlLower (strTrim name))
    (hfresh : ∀ t ∈ db.txns, ¬ t.account_id = db.nextAccId) :
    create_account_db db today name bal curr =
      .ok ({ db with accounts := db.accounts ++ [⟨db.nextAccId, strTrim name, bal, curr⟩],
                     nextAccId := db.nextAccId + 1 },
           ⟨db.nextAccId, strTrim name, bal, curr⟩) ∧
    txSum db.txns db.nextAccId = 0 ∧
    ¬ bal = txSum db.txns db.nextAccId := by
  have hz : txSum db.txns db.nextAccId = 0 := txSum_eq_zero hfresh
  have hfind : db.accounts.find? (fun a => sqlLower a.name = sqlLower (strTrim name)) = none := by
    rw [List.find?_eq_none]
    intro a ha
    simp [hdup a ha]
  refine ⟨?_, hz, by rw [hz]; exact hne⟩
  simp only [create_account_db, hfind, Option.isSome_none, Bool.false_eq_true, if_false,
    if_neg hname, if_neg (not_lt.mpr hsmall)]

/-- C10 witness: opening balance 2⁻⁵³ (positive, below epsilon) yields an
account with stored balance 2⁻⁵³ and no transaction row. -/
theorem create_account_subepsilon_witness :
    create_account_db ⟨[], [], 1, 1⟩ "d" "Tiny" (1 / 2 ^ 53) none =
      .ok (⟨[⟨1, "Tiny", 1 / 2 ^ 53, none⟩], [], 2, 1⟩, ⟨1, "Tiny", 1 / 2 ^ 53, none⟩) ∧
    txSum ([] : List Txn) 1 = 0 ∧
    ¬ (1 / 2 ^ 53 : ℚ) = txSum ([] : List Txn) 1 :=
  create_account_subepsilon ⟨[], [], 1, 1⟩ "d" "Tiny" (1 / 2 ^ 53) none
    (by norm_num) (by rw [abs_of_pos (by norm_num)]; norm_num [eps]) (by decide)
    (by simp) (by simp)

/-! ### Claim theorems: delete fallback -/

/-- C9: deleting a transaction with no linked reference but non-null notes
removes, via the notes fallback, the first other transaction whose notes
exactly match and whose category is "Transfer" — even when the deleted
transaction's own category is not "Transfer" — and subtracts that row's
amount from its own account's balance. -/
theorem delete_notes_fallback_ordinary (db : DB) (i : Int) (t0 f : Txn) (n : String)
    (h0 : db.txns.find? (fun t => t.id = i) = some t0)
    (hcat : ¬ t0.category = some "Transfer")
    (hlink : t0.linked_tx_id = none)
    (hnotes : t0.notes = some n)
    (hf : (eraseId db.txns i).find?
        (fun t => t.notes = some n ∧ t.category = some "Transfer") = some f) :
    delete_transaction_db db i =
      .ok { db with
        txns := eraseId (eraseId db.txns i) f.id,
        accounts := updateBalance (updateBalance db.accounts t0.account_id (-t0.amount))
          f.account_id (-f.amount) } := by
  unfold delete_transaction_db
  rw [h0]
  simp only [hlink, hnotes, hf]

/-- C9 witness: deleting an ordinary "Groceries" transaction whose notes
coincide with an unrelated transfer row removes that transfer row as well. -/
theorem delete_notes_fallback_ordinary_witness :
    delete_transaction_db
      ⟨[⟨1, "A", 60, none⟩, ⟨2, "B", -50, none⟩],
       [⟨1, 2, "2023-01-01", "A", some "n", some "Transfer", -50, none, none, none, none, none, none⟩,
        ⟨3, 1, "2023-01-02", "Shop", some "n", some "Groceries", 10, none, none, none, none, none, none⟩],
       3, 4⟩ 3 =
      .ok { (⟨[⟨1, "A", 60, none⟩, ⟨2, "B", -50, none⟩],
       [⟨1, 2, "2023-01-01", "A", some "n", some "Transfer", -50, none, none, none, none, none, none⟩,
        ⟨3, 1, "2023-01-02", "Shop", some "n", some "Groceries", 10, none, none, none, none, none, none⟩],
       3, 4⟩ : DB) with
        txns := eraseId (eraseId [⟨1, 2, "2023-01-01", "A", some "n", some "Transfer", -50, none, none, none, none, none, none⟩,
          ⟨3, 1, "2023-01-02", "Shop", some "n", some "Groceries", 10, none, none, none, none, none, none⟩] 3) 1,
        accounts := updateBalance (updateBalance [⟨1, "A", 60, none⟩, ⟨2, "B", -50, none⟩] 1 (-10)) 2 (-(-50)) } :=
  delete_notes_fallback_ordinary _ 3
    ⟨3, 1, "2023-01-02", "Shop", some "n", some "Groceries", 10, none, none, none, none, none, none⟩
    ⟨1, 2, "2023-01-01", "A", some "n", some "Transfer", -50, none, none, none, none, none, none⟩
    "n" (by decide) (by decide) rfl rfl (by decide)

theorem find?_id_append_of_none {l1 : List Txn} {j : Int}
    (h : ∀ t ∈ l1, ¬ t.id = j) (l2 : List Txn) :
    (l1 ++ l2).find? (fun t => t.id = j) = l2.find? (fun t => t.id = j) := by
  rw [List.find?_append]
  have h1 : l1.find? (fun t => t.id = j) = none :=
    List.find?_eq_none.mpr (by intro t ht; simpa using h t ht)
  rw [h1, Option.none_or]

theorem mapIfId_append (l1 l2 : List Txn) (i : Int) (f : Txn → Txn) :
    mapIfId (l1 ++ l2) i f = mapIfId l1 i f ++ mapIfId l2 i f := by
  simp [mapIfId]

theorem eraseId_append (l1 l2 : List Txn) (i : Int) :
    eraseId (l1 ++ l2) i = eraseId l1 i ++ eraseId l2 i := by
  simp [eraseId, List.filter_append]

/-- Canonical form of a successful transfer creation: the two rows are
appended mutually linked, and both account balances are adjusted. -/
theorem create_transfer_eq (db : DB) (args : CreateTransactionArgs) (tgt src : Account)
    (htgt : db.accounts.find? (fun a => a.name = args.payee ∧ ¬ a.id = args.account_id)
      = some tgt)
    (hsrc : db.accounts.find? (fun a => a.id = args.account_id) = some src)
    (hfresh : ∀ t ∈ db.txns, t.id < db.nextTxId) :
    create_transaction_db db args =
      .ok ({ db with
          txns := db.txns ++
            [⟨db.nextTxId, args.account_id, args.date, args.payee, args.notes,
              some "Transfer", args.amount, args.ticker, args.shares,
              args.price_per_share, args.fee, args.currency, some (db.nextTxId + 1)⟩,
             ⟨db.nextTxId + 1, tgt.id, args.date, src.name, args.notes, some "Transfer",
              -args.amount, none, none, none, none, none, some db.nextTxId⟩],
          accounts := updateBalance (updateBalance db.accounts args.account_id args.amount)
            tgt.id (-args.amount),
          nextTxId := db.nextTxId + 1 + 1 },
        ⟨db.nextTxId, args.account_id, args.date, args.payee, args.notes, some "Transfer",
          args.amount, args.ticker, args.shares, args.price_per_share, args.fee,
          args.currency, none⟩) := by
  have hsrcid : src.id = args.account_id := by
    have := List.find?_some hsrc
    simpa using this
  have hsrc1 : (updateBalance db.accounts args.account_id args.amount).find?
      (fun a => a.id = args.account_id) =
      some { src with balance := src.balance + args.amount } := by
    rw [find?_id_updateBalance, hsrc]
    simp [hsrcid]
  have hfresh1 : ∀ t ∈ db.txns, ¬ t.id = db.nextTxId := fun t ht => by
    have := hfresh t ht
    omega
  have hfresh2 : ∀ t ∈ db.txns, ¬ t.id = db.nextTxId + 1 := fun t ht => by
    have := hfresh t ht
    omega
  have hne12 : ¬ db.nextTxId = db.nextTxId + 1 := by omega
  have hne21 : ¬ db.nextTxId + 1 = db.nextTxId := by omega
  simp only [create_transaction_db, htgt, hsrc1, Option.isSome_some, if_true]
  rw [List.append_assoc]
  rw [mapIfId_append]
  rw [mapIfId_of_not_mem hfresh1]
  rw [mapIfId_append]
  rw [mapIfId_of_not_mem hfresh2]
  simp [mapIfId, hne12, hne21]

/-! ### Claim theorems: transfer creation -/

/-- C2: creating a transaction on account A whose payee exactly equals the
name of a different account B overrides the caller-supplied category with
"Transfer", inserts a second transaction on B with the same date, payee equal
to A's name, category "Transfer", amount the negation of A's amount, notes
copied, sets the two rows' linked references to each other's ids, and adds
the amount to A's balance and its negation to B's balance. -/
theorem create_transfer (db : DB) (args : CreateTransactionArgs) (tgt src : Account)
    (htgt : db.accounts.find? (fun a => a.name = args.payee ∧ ¬ a.id = args.account_id)
      = some tgt)
    (hsrc : db.accounts.find? (fun a => a.id = args.account_id) = some src)
    (hfresh : ∀ t ∈ db.txns, t.id < db.nextTxId) :
    ∃ db2,
      create_transaction_db db args =
        .ok (db2,
          ⟨db.nextTxId, args.account_id, args.date, args.payee, args.notes, some "Transfer",
            args.amount, args.ticker, args.shares, args.price_per_share, args.fee,
            args.currency, none⟩) ∧
      db2.txns.find? (fun t => t.id = db.nextTxId) =
        some ⟨db.nextTxId, args.account_id, args.date, args.payee, args.notes, some "Transfer",
          args.amount, args.ticker, args.shares, args.price_per_share, args.fee,
          args.currency, some (db.nextTxId + 1)⟩ ∧
      db2.txns.find? (fun t => t.id = db.nextTxId + 1) =
        some ⟨db.nextTxId + 1, tgt.id, args.date, src.name, args.notes, some "Transfer",
          -args.amount, none, none, none, none, none, some db.nextTxId⟩ ∧
      db2.accounts = updateBalance (updateBalance db.accounts args.account_id args.amount)
        tgt.id (-args.amount) := by
  have hfresh1 : ∀ t ∈ db.txns, ¬ t.id = db.nextTxId := fun t ht => by
    have := hfresh t ht
    omega
  have hfresh2 : ∀ t ∈ db.txns, ¬ t.id = db.nextTxId + 1 := fun t ht => by
    have := hfresh t ht
    omega
  have hne12 : ¬ db.nextTxId = db.nextTxId + 1 := by omega
  have hA : (db.txns ++
      ([⟨db.nextTxId, args.account_id, args.date, args.payee, args.notes,
        some "Transfer", args.amount, args.ticker, args.shares,
        args.price_per_share, args.fee, args.currency, some (db.nextTxId + 1)⟩,
       ⟨db.nextTxId + 1, tgt.id, args.date, src.name, args.notes, some "Transfer",
        -args.amount, none, none, none, none, none, some db.nextTxId⟩] : List Txn)).find?
      (fun t => t.id = db.nextTxId) =
      some ⟨db.nextTxId, args.account_id, args.date, args.payee, args.notes,
        some "Transfer", args.amount, args.ticker, args.shares,
        args.price_per_share, args.fee, args.currency, some (db.nextTxId + 1)⟩ := by
    rw [find?_id_append_of_none hfresh1]
    simp [List.find?]
  have hB : (db.txns ++
      ([⟨db.nextTxId, args.account_id, args.date, args.payee, args.notes,
        some "Transfer", args.amount, args.ticker, args.shares,
        args.price_per_share, args.fee, args.currency, some (db.nextTxId + 1)⟩,
       ⟨db.nextTxId + 1, tgt.id, args.date, src.name, args.notes, some "Transfer",
        -args.amount, none, none, none, none, none, some db.nextTxId⟩] : List Txn)).find?
      (fun t => t.id = db.nextTxId + 1) =
      some ⟨db.nextTxId + 1, tgt.id, args.date, src.name, args.notes, some "Transfer",
        -args.amount, none, none, none, none, none, some db.nextTxId⟩ := by
    rw [find?_id_append_of_none hfresh2]
    simp [List.find?, hne12]
  exact ⟨_, create_transfer_eq db args tgt src htgt hsrc hfresh, hA, hB, rfl⟩

/-- C2 witness: the spec's example — A at 100, B at 0, create on A with amount
−50 and payee "B". -/
theorem create_transfer_witness :
    ∃ db2,
      create_transaction_db ⟨[⟨1, "A", 100, none⟩, ⟨2, "B", 0, none⟩], [], 3, 1⟩
          ⟨1, "2023-01-01", "B", none, none, -50, none, none, none, none, none⟩ =
        .ok (db2,
          ⟨1, 1, "2023-01-01", "B", none, some "Transfer", -50, none, none, none, none,
            none, none⟩) ∧
      db2.txns.find? (fun t => t.id = 1) =
        some ⟨1, 1, "2023-01-01", "B", none, some "Transfer", -50, none, none, none, none,
          none, some (1 + 1)⟩ ∧
      db2.txns.find? (fun t => t.id = 1 + 1) =
        some ⟨1 + 1, 2, "2023-01-01", "A", none, some "Transfer", -(-50), none, none, none,
          none, none, some 1⟩ ∧
      db2.accounts = updateBalance (updateBalance [⟨1, "A", 100, none⟩, ⟨2, "B", 0, none⟩]
        1 (-50)) 2 (-(-50)) :=
  create_transfer ⟨[⟨1, "A", 100, none⟩, ⟨2, "B", 0, none⟩], [], 3, 1⟩
    ⟨1, "2023-01-01", "B", none, none, -50, none, none, none, none, none⟩
    ⟨2, "B", 0, none⟩ ⟨1, "A", 100, none⟩ (by decide) rfl (by simp)

/-- Deleting the first row of a freshly appended mutually linked pair removes
both rows and applies both balance adjustments. -/
theorem delete_linked_pair_fst (accs : List Account) (txns : List Txn) (nA nT : Int)
    (r1 r2 : Txn)
    (h1 : ∀ t ∈ txns, ¬ t.id = r1.id) (h2 : ∀ t ∈ txns, ¬ t.id = r2.id)
    (hne : ¬ r1.id = r2.id) (hl1 : r1.linked_tx_id = some r2.id) :
    delete_transaction_db ⟨accs, txns ++ [r1, r2], nA, nT⟩ r1.id =
      .ok ⟨updateBalance (updateBalance accs r1.account_id (-r1.amount))
        r2.account_id (-r2.amount), txns, nA, nT⟩ := by
  have hne' : ¬ r2.id = r1.id := fun h => hne h.symm
  have hf0 : (txns ++ [r1, r2]).find? (fun t => t.id = r1.id) = some r1 := by
    rw [find?_id_append_of_none h1]
    simp [List.find?]
  have hE1 : eraseId (txns ++ [r1, r2]) r1.id = txns ++ [r2] := by
    rw [eraseId_append, eraseId_of_not_mem h1]
    simp [eraseId, hne']
  have hf1 : (txns ++ [r2]).find? (fun t => t.id = r2.id) = some r2 := by
    rw [find?_id_append_of_none h2]
    simp [List.find?]
  have hE2 : eraseId (txns ++ [r2]) r2.id = txns := by
    rw [eraseId_append, eraseId_of_not_mem h2]
    simp [eraseId]
  simp only [delete_transaction_db, hf0, hl1, hE1, hf1, hE2]

/-- Deleting the second row of a freshly appended mutually linked pair removes
both rows and applies both balance adjustments. -/
theorem delete_linked_pair_snd (accs : List Account) (txns : List Txn) (nA nT : Int)
    (r1 r2 : Txn)
    (h1 : ∀ t ∈ txns, ¬ t.id = r1.id) (h2 : ∀ t ∈ txns, ¬ t.id = r2.id)
    (hne : ¬ r1.id = r2.id) (hl2 : r2.linked_tx_id = some r1.id) :
    delete_transaction_db ⟨accs, txns ++ [r1, r2], nA, nT⟩ r2.id =
      .ok ⟨updateBalance (updateBalance accs r2.account_id (-r2.amount))
        r1.account_id (-r1.amount), txns, nA, nT⟩ := by
  have hne' : ¬ r2.id = r1.id := fun h => hne h.symm
  have hf0 : (txns ++ [r1, r2]).find? (fun t => t.id = r2.id) = some r2 := by
    rw [find?_id_append_of_none h2]
    simp [List.find?, hne]
  have hE1 : eraseId (txns ++ [r1, r2]) r2.id = txns ++ [r1] := by
    rw [eraseId_append, eraseId_of_not_mem h2]
    simp [eraseId, hne]
  have hf1 : (txns ++ [r1]).find? (fun t => t.id = r1.id) = some r1 := by
    rw [find?_id_append_of_none h1]
    simp [List.find?]
  have hE2 : eraseId (txns ++ [r1]) r1.id = txns := by
    rw [eraseId_append, eraseId_of_not_mem h1]
    simp [eraseId]
  simp only [delete_transaction_db, hf0, hl2, hE1, hf1, hE2]

/-- C4: deleting either side of a mutually linked transfer pair removes both
transaction rows and subtracts each row's stored amount from its own account's
balance; deleting either side right after a transfer creation restores both
accounts' balances (indeed the whole account table and transaction table) to
their pre-transfer values; and when the linked reference is absent, a
counterpart found by exact notes match with category "Transfer" is removed
instead. -/
theorem delete_cascade :
    (∀ (db : DB) (i j : Int) (t0 tj : Txn),
      db.txns.find? (fun t => t.id = i) = some t0 →
      t0.linked_tx_id = some j →
      (eraseId db.txns i).find? (fun t => t.id = j) = some tj →
      delete_transaction_db db i =
        .ok { db with
          txns := eraseId (eraseId db.txns i) j,
          accounts := updateBalance
            (updateBalance db.accounts t0.account_id (-t0.amount))
            tj.account_id (-tj.amount) }) ∧
    (∀ (db : DB) (args : CreateTransactionArgs) (tgt src : Account),
      db.accounts.find? (fun a => a.name = args.payee ∧ ¬ a.id = args.account_id)
        = some tgt →
      db.accounts.find? (fun a => a.id = args.account_id) = some src →
      (∀ t ∈ db.txns, t.id < db.nextTxId) →
      ∀ k, (k = db.nextTxId ∨ k = db.nextTxId + 1) →
      ∃ db2 row db3,
        create_transaction_db db args = .ok (db2, row) ∧
        delete_transaction_db db2 k = .ok db3 ∧
        db3.txns = db.txns ∧ db3.accounts = db.accounts) ∧
    (∀ (db : DB) (i : Int) (t0 f : Txn) (n : String),
      db.txns.find? (fun t => t.id = i) = some t0 →
      t0.linked_tx_id = none →
      t0.notes = some n →
      (eraseId db.txns i).find?
        (fun t => t.notes = some n ∧ t.category = some "Transfer") = some f →
      delete_transaction_db db i =
        .ok { db with
          txns := eraseId (eraseId db.txns i) f.id,
          accounts := updateBalance
            (updateBalance db.accounts t0.account_id (-t0.amount))
            f.account_id (-f.amount) }) := by
  refine ⟨?_, ?_, ?_⟩
  · intro db i j t0 tj h0 hlink hctr
    unfold delete_transaction_db
    rw [h0]
    simp only [hlink, hctr]
  · intro db args tgt src htgt hsrc hfresh k hk
    have hcreate := create_transfer_eq db args tgt src htgt hsrc hfresh
    have hfresh1 : ∀ t ∈ db.txns, ¬ t.id = db.nextTxId := fun t ht => by
      have := hfresh t ht
      omega
    have hfresh2 : ∀ t ∈ db.txns, ¬ t.id = db.nextTxId + 1 := fun t ht => by
      have := hfresh t ht
      omega
    have hne12 : ¬ db.nextTxId = db.nextTxId + 1 := by omega
    have halg1 : updateBalance (updateBalance
        (updateBalance (updateBalance db.accounts args.account_id args.amount)
          tgt.id (-args.amount)) args.account_id (-args.amount))
        tgt.id (-(-args.amount)) = db.accounts := by
      rw [updateBalance_comm (updateBalance db.accounts args.account_id args.amount)
          tgt.id args.account_id (-args.amount) (-args.amount)]
      rw [updateBalance_same db.accounts args.account_id args.amount (-args.amount)]
      rw [add_neg_cancel, updateBalance_zero]
      rw [updateBalance_same db.accounts tgt.id (-args.amount) (-(-args.amount))]
      rw [add_neg_cancel, updateBalance_zero]
    have halg2 : updateBalance (updateBalance
        (updateBalance (updateBalance db.accounts args.account_id args.amount)
          tgt.id (-args.amount)) tgt.id (-(-args.amount)))
        args.account_id (-args.amount) = db.accounts := by
      rw [updateBalance_same
          (updateBalance db.accounts args.account_id args.amount)
          tgt.id (-args.amount) (-(-args.amount))]
      rw [add_neg_cancel, updateBalance_zero]
      rw [updateBalance_same db.accounts args.account_id args.amount (-args.amount)]
      rw [add_neg_cancel, updateBalance_zero]
    rcases hk with hk | hk
    · subst hk
      exact ⟨_, _, _, hcreate,
        delete_linked_pair_fst
          (updateBalance (updateBalance db.accounts args.account_id args.amount)
            tgt.id (-args.amount))
          db.txns db.nextAccId (db.nextTxId + 1 + 1)
          ⟨db.nextTxId, args.account_id, args.date, args.payee, args.notes,
            some "Transfer", args.amount, args.ticker, args.shares,
            args.price_per_share, args.fee, args.currency, some (db.nextTxId + 1)⟩
          ⟨db.nextTxId + 1, tgt.id, args.date, src.name, args.notes, some "Transfer",
            -args.amount, none, none, none, none, none, some db.nextTxId⟩
          hfresh1 hfresh2 hne12 rfl,
        rfl, halg1⟩
    · subst hk
      exact ⟨_, _, _, hcreate,
        delete_linked_pair_snd
          (updateBalance (updateBalance db.accounts args.account_id args.amount)
            tgt.id (-args.amount))
          db.txns db.nextAccId (db.nextTxId + 1 + 1)
          ⟨db.nextTxId, args.account_id, args.date, args.payee, args.notes,
            some "Transfer", args.amount, args.ticker, args.shares,
            args.price_per_share, args.fee, args.currency, some (db.nextTxId + 1)⟩
          ⟨db.nextTxId + 1, tgt.id, args.date, src.name, args.notes, some "Transfer",
            -args.amount, none, none, none, none, none, some db.nextTxId⟩
          hfresh1 hfresh2 hne12 rfl,
        rfl, halg2⟩
  · intro db i t0 f n h0 hlink hnotes hf
    unfold delete_transaction_db
    rw [h0]
    simp only [hlink, hnotes, hf]

/-- C4 witness: create a transfer (A at 100 pays 50 to B) and delete the
caller's row; both rows vanish and both balances return to 100 and 0. -/
theorem delete_cascade_witness :
    ∃ db2 row db3,
      create_transaction_db ⟨[⟨1, "A", 100, none⟩, ⟨2, "B", 0, none⟩], [], 3, 1⟩
          ⟨1, "2023-01-01", "B", none, none, -50, none, none, none, none, none⟩ =
        .ok (db2, row) ∧
      delete_transaction_db db2 1 = .ok db3 ∧
      db3.txns = ([] : List Txn) ∧
      db3.accounts = [⟨1, "A", 100, none⟩, ⟨2, "B", 0, none⟩] :=
  delete_cascade.2.1 ⟨[⟨1, "A", 100, none⟩, ⟨2, "B", 0, none⟩], [], 3, 1⟩
    ⟨1, "2023-01-01", "B", none, none, -50, none, none, none, none, none⟩
    ⟨2, "B", 0, none⟩ ⟨1, "A", 100, none⟩ (by decide) rfl (by simp) 1 (Or.inl rfl)

/-- A store holding a linked transfer pair (rows 1 and 2, notes "n") plus an
ordinary "Groceries" transaction (row 3) that happens to carry the same notes
text.  Balances are consistent: account 1 owns −50 + 10 = −40, account 2 owns
50. -/
def dbMixedNotes : DB :=
  ⟨[⟨1, "A", -40, none⟩, ⟨2, "B", 50, none⟩],
   [⟨1, 1, "2023-01-01", "B", some "n", some "Transfer", -50, none, none, none, none,
      none, some 2⟩,
    ⟨2, 2, "2023-01-01", "A", some "n", some "Transfer", 50, none, none, none, none,
      none, some 1⟩,
    ⟨3, 1, "2023-01-02", "Shop", some "n", some "Groceries", 10, none, none, none,
      none, none, none⟩],
   3, 4⟩

/-- The update of row 3 of `dbMixedNotes` whose field values are identical to
the stored row. -/
def noopArgs : UpdateTransactionArgs :=
  ⟨3, 1, "2023-01-02", "Shop", some "n", some "Groceries", 10, none⟩

/-- The store produced by the "no-op" update of row 3 of `dbMixedNotes`:
rows 3 and 1 are now linked to each other, row 1 has been rewritten to amount
−10 with payee "A", and account 1's balance moved from −40 to 0. -/
def dbMixedNotesAfter : DB :=
  { dbMixedNotes with
    txns := [⟨1, 1, "2023-01-02", "A", some "n", some "Transfer", -10, none, none,
      none, none, none, some 3⟩,
     ⟨2, 2, "2023-01-01", "A", some "n", some "Transfer", 50, none, none, none, none,
      none, some 1⟩,
     ⟨3, 1, "2023-01-02", "Shop", some "n", some "Groceries", 10, none, none, none,
      none, none, some 1⟩],
    accounts := [⟨1, "A", 0, none⟩, ⟨2, "B", 50, none⟩] }

/-- Evaluation of the engine on the mixed-notes store: the identical-values
update of row 3 fires the notes fallback. -/
theorem update_mixedNotes_eval :
    update_transaction_db dbMixedNotes noopArgs = .ok dbMixedNotesAfter := by
  have hd1 : ¬ eps < |(10 : ℚ) - 10| := by norm_num [eps]
  have hd2 : eps < |(-10 : ℚ) - -50| := by norm_num [eps]
  simp only [update_transaction_db, dbMixedNotes, dbMixedNotesAfter, noopArgs,
    resolveCounterpart, mapIfId, applyUpd, applyCtrUpd, updateBalance,
    List.find?, List.map]
  norm_num [hd1, hd2, eps]

/-- C5 counterexample: updating row 3 of `dbMixedNotes` with values identical
to its stored values (a "no-op" update) nevertheless changes account 1's
balance from −40 to 0: the notes fallback links row 3 to transfer row 1 and
rewrites row 1's amount from −50 to −10, applying the +40 diff. -/
theorem noop_update_counterexample :
    dbMixedNotes.txns.find? (fun t => t.id = noopArgs.id) =
      some ⟨3, 1, "2023-01-02", "Shop", some "n", some "Groceries", 10, none, none,
        none, none, none, none⟩ ∧
    (∃ db2, update_transaction_db dbMixedNotes noopArgs = .ok db2 ∧
      db2.accounts.find? (fun a => a.id = 1) = some ⟨1, "A", 0, none⟩) ∧
    dbMixedNotes.accounts.find? (fun a => a.id = 1) = some ⟨1, "A", -40, none⟩ ∧
    ¬ (0 : ℚ) = -40 :=
  ⟨rfl, ⟨dbMixedNotesAfter, update_mixedNotes_eval, rfl⟩, rfl, by norm_num⟩

/-- C3, code evaluated at the failing input: in `dbMixedNotes` every linked
reference is symmetric, yet after one update (of row 3, with identical field
values) the store contains row 2 whose linked reference points to row 1 while
row 1's linked reference now points to row 3, not back to row 2. -/
theorem link_symmetry_code_bug :
    dbMixedNotes.txns.find? (fun t => t.id = 1) =
      some ⟨1, 1, "2023-01-01", "B", some "n", some "Transfer", -50, none, none, none,
        none, none, some 2⟩ ∧
    dbMixedNotes.txns.find? (fun t => t.id = 2) =
      some ⟨2, 2, "2023-01-01", "A", some "n", some "Transfer", 50, none, none, none,
        none, none, some 1⟩ ∧
    ∃ db2 t1 t2,
      update_transaction_db dbMixedNotes noopArgs = .ok db2 ∧
      db2.txns.find? (fun t => t.id = 2) = some t2 ∧
      t2.linked_tx_id = some 1 ∧
      db2.txns.find? (fun t => t.id = 1) = some t1 ∧
      t1.linked_tx_id = some 3 ∧
      ¬ t1.linked_tx_id = some t2.id :=
  ⟨rfl, rfl,
    dbMixedNotesAfter,
    ⟨1, 1, "2023-01-02", "A", some "n", some "Transfer", -10, none, none, none, none,
      none, some 3⟩,
    ⟨2, 2, "2023-01-01", "A", some "n", some "Transfer", 50, none, none, none, none,
      none, some 1⟩,
    update_mixedNotes_eval, rfl, rfl, rfl, rfl, by decide⟩

/-- C5 (amended): an update whose field values are identical to the stored
row's values leaves every account balance unchanged, provided the owning
account exists and the counterpart resolution finds either no counterpart row
or one whose stored amount is exactly the negation of the transaction's
amount (as is the case for every counterpart kept in sync by the engine). -/
theorem noop_update_amended (db : DB) (args : UpdateTransactionArgs) (t : Txn)
    (src : Account)
    (h0 : db.txns.find? (fun s => s.id = args.id) = some t)
    (hsrc : db.accounts.find? (fun a => a.id = args.account_id) = some src)
    (hacc : t.account_id = args.account_id) (hamt : t.amount = args.amount)
    (hctr : ∀ cid c,
      (resolveCounterpart (mapIfId db.txns args.id (applyUpd args)) args).1 = some cid →
      (resolveCounterpart (mapIfId db.txns args.id (applyUpd args)) args).2.find?
        (fun s => s.id = cid) = some c →
      c.amount = -args.amount) :
    ∃ db2, update_transaction_db db args = .ok db2 ∧ db2.accounts = db.accounts := by
  have heps : ¬ eps < |args.amount - t.amount| := by
    rw [hamt, sub_self, abs_zero]
    norm_num [eps]
  unfold update_transaction_db
  rw [h0]
  simp only [hacc, if_pos rfl, heps, if_false]
  rcases hres : resolveCounterpart (mapIfId db.txns args.id (applyUpd args)) args with
    ⟨cOpt, txns2⟩
  cases cOpt with
  | none => exact ⟨_, rfl, rfl⟩
  | some cid =>
    rcases hfc : txns2.find? (fun s => s.id = cid) with _ | c
    · simp only [hfc]
      exact ⟨_, rfl, rfl⟩
    · have hcamt : c.amount = -args.amount :=
        hctr cid c (by rw [hres]) (by rw [hres]; exact hfc)
      have hcd : ¬ eps < |-args.amount - c.amount| := by
        rw [hcamt, sub_self, abs_zero]
        norm_num [eps]
      simp only [hfc, ite_true]
      rw [hsrc]
      simp only [hcd, if_false]
      exact ⟨_, rfl, rfl⟩

/-- C5 witness: a no-op update of a lone ordinary transaction (no counterpart
anywhere) leaves the account table unchanged. -/
theorem noop_update_amended_witness :
    ∃ db2, update_transaction_db
        ⟨[⟨1, "A", 10, none⟩], [⟨1, 1, "d", "P", none, none, 10, none, none, none, none,
          none, none⟩], 2, 2⟩
        ⟨1, 1, "d", "P", none, none, 10, none⟩ = .ok db2 ∧
      db2.accounts = [⟨1, "A", 10, none⟩] :=
  noop_update_amended
    ⟨[⟨1, "A", 10, none⟩], [⟨1, 1, "d", "P", none, none, 10, none, none, none, none,
      none, none⟩], 2, 2⟩
    ⟨1, 1, "d", "P", none, none, 10, none⟩
    ⟨1, 1, "d", "P", none, none, 10, none, none, none, none, none, none⟩
    ⟨1, "A", 10, none⟩ rfl rfl rfl rfl
    (fun cid c h1 h2 => by
      simp [resolveCounterpart, mapIfId, applyUpd, List.find?] at h1)

/-! ### The balance invariant under operation sequences -/

/-- Epsilon-safety of an update: the row's amount change, and the induced
counterpart amount change, are each either zero (or a move between accounts,
which the code handles with unconditional adjustments) or larger than
`f64::EPSILON` in absolute value; and the referenced account exists. -/
def updSafeB (db : DB) (args : UpdateTransactionArgs) : Bool :=
  match db.txns.find? (fun t => t.id = args.id) with
  | none => true
  | some old =>
    db.accounts.any (fun a => a.id = args.account_id) &&
    (¬ old.account_id = args.account_id ∨ args.amount = old.amount
      ∨ eps < |args.amount - old.amount|) &&
    (match resolveCounterpart (mapIfId db.txns args.id (applyUpd args)) args with
     | (none, _) => true
     | (some cid, txns2) =>
       match txns2.find? (fun t => t.id = cid) with
       | none => true
       | some ctr => -args.amount = ctr.amount ∨ eps < |-args.amount - ctr.amount|)

/-- Safety of one operation in a given store: opening balances are zero or
beyond epsilon, created transactions reference an existing account, and
updates are epsilon-safe. -/
def opSafeB (db : DB) : Op → Bool
  | .createAcc _ _ bal _ => bal = 0 ∨ eps < |bal|
  | .createTx args => db.accounts.any (fun a => a.id = args.account_id)
  | .updateTx args => updSafeB db args
  | .deleteTx _ => true
  | .deleteAcc _ => true

/-- Safety of a whole operation sequence, each operation judged in the store
it actually executes in. -/
def safeRun (db : DB) : List Op → Bool
  | [] => true
  | op :: ops => opSafeB db op && safeRun (step db op) ops

/-- Well-formedness of a store: distinct transaction rowids, rowid counters
ahead of every allocated id, every transaction owned by an existing account,
and the balance invariant. -/
structure WF (db : DB) : Prop where
  nodupTx : (db.txns.map Txn.id).Nodup
  freshTx : ∀ t ∈ db.txns, t.id < db.nextTxId
  freshAcc : ∀ a ∈ db.accounts, a.id < db.nextAccId
  txAcc : ∀ t ∈ db.txns, ∃ a ∈ db.accounts, a.id = t.account_id
  bal : ∀ a ∈ db.accounts, a.balance = txSum db.txns a.id

theorem WF_emptyDB : WF emptyDB := by
  constructor <;> simp [emptyDB, txSum]

theorem txSum_mapIfId_preserve (txns : List Txn) (i j : Int) (f : Txn → Txn)
    (hf : ∀ t, (f t).account_id = t.account_id ∧ (f t).amount = t.amount) :
    txSum (mapIfId txns i f) j = txSum txns j := by
  unfold txSum mapIfId
  rw [List.map_map]
  congr 1
  apply List.map_congr_left
  intro t _
  by_cases h : t.id = i
  · simp [Function.comp, h, (hf t).1, (hf t).2]
  · simp [Function.comp, h]

theorem mem_acct_mapIfId {txns : List Txn} {i : Int} {f : Txn → Txn} {t : Txn}
    (hf : ∀ s, (f s).account_id = s.account_id) (h : t ∈ mapIfId txns i f) :
    ∃ s ∈ txns, s.account_id = t.account_id := by
  rcases mem_mapIfId h with ⟨s, hs, hst⟩
  refine ⟨s, hs, ?_⟩
  by_cases hc : s.id = i
  · rw [hst, if_pos hc, hf s]
  · rw [hst, if_neg hc]

theorem resolveCounterpart_cases (txns1 : List Txn) (args : UpdateTransactionArgs) :
    (resolveCounterpart txns1 args).2 = txns1 ∨
    ∃ fid, (resolveCounterpart txns1 args).2 =
      mapIfId (mapIfId txns1 args.id (fun t => { t with linked_tx_id := some fid }))
        fid (fun t => { t with linked_tx_id := some args.id }) := by
  unfold resolveCounterpart
  split
  · exact Or.inl rfl
  · split
    · exact Or.inl rfl
    · split
      · exact Or.inl rfl
      · exact Or.inr ⟨_, rfl⟩

theorem resolveCounterpart_snd_sum (txns1 : List Txn) (args : UpdateTransactionArgs) :
    ∀ j, txSum (resolveCounterpart txns1 args).2 j = txSum txns1 j := by
  intro j
  rcases resolveCounterpart_cases txns1 args with h | ⟨fid, h⟩
  · rw [h]
  · rw [h,
      txSum_mapIfId_preserve _ fid j (fun t => { t with linked_tx_id := some args.id })
        (fun t => ⟨rfl, rfl⟩),
      txSum_mapIfId_preserve _ args.id j (fun t => { t with linked_tx_id := some fid })
        (fun t => ⟨rfl, rfl⟩)]

theorem resolveCounterpart_snd_ids (txns1 : List Txn) (args : UpdateTransactionArgs) :
    (resolveCounterpart txns1 args).2.map Txn.id = txns1.map Txn.id := by
  rcases resolveCounterpart_cases txns1 args with h | ⟨fid, h⟩
  · rw [h]
  · rw [h,
      ids_mapIfId _ fid (fun t => { t with linked_tx_id := some args.id }) (fun t => rfl),
      ids_mapIfId _ args.id (fun t => { t with linked_tx_id := some fid }) (fun t => rfl)]

theorem resolveCounterpart_snd_acct (txns1 : List Txn) (args : UpdateTransactionArgs) :
    ∀ t ∈ (resolveCounterpart txns1 args).2, ∃ s ∈ txns1, s.account_id = t.account_id := by
  intro t ht
  rcases resolveCounterpart_cases txns1 args with h | ⟨fid, h⟩
  · rw [h] at ht
    exact ⟨t, ht, rfl⟩
  · rw [h] at ht
    rcases mem_acct_mapIfId (f := fun t => { t with linked_tx_id := some args.id })
      (fun s => rfl) ht with ⟨u, hu, hut⟩
    rcases mem_acct_mapIfId (f := fun t => { t with linked_tx_id := some fid })
      (fun s => rfl) hu with ⟨v, hv, hvu⟩
    exact ⟨v, hv, hvu.trans hut⟩

theorem ids_updateBalance (accs : List Account) (k : Int) (d : ℚ) :
    (updateBalance accs k d).map Account.id = accs.map Account.id := by
  unfold updateBalance
  rw [List.map_map]
  apply List.map_congr_left
  intro a _
  by_cases h : a.id = k
  · simp [Function.comp, h]
  · simp [Function.comp, h]

theorem exists_mem_updateBalance {accs : List Account} {a : Account} (k : Int) (d : ℚ)
    (ha : a ∈ accs) : ∃ b ∈ updateBalance accs k d, b.id = a.id := by
  refine ⟨if a.id = k then { a with balance := a.balance + d } else a,
    List.mem_map_of_mem _ ha, ?_⟩
  by_cases h : a.id = k
  · simp [h]
  · simp [h]

theorem bal_updateBalance_one (accs : List Account) (txnsA txnsB : List Txn)
    (k : Int) (d : ℚ)
    (hbal : ∀ a ∈ accs, a.balance = txSum txnsA a.id)
    (hsum : ∀ j, txSum txnsB j = txSum txnsA j + (if k = j then d else 0)) :
    ∀ a ∈ updateBalance accs k d, a.balance = txSum txnsB a.id := by
  intro a ha
  rcases mem_updateBalance ha with ⟨b, hb, hab⟩
  subst hab
  by_cases hk : b.id = k
  · simp only [if_pos hk]
    rw [hsum b.id, ← hbal b hb, if_pos hk.symm]
  · simp only [if_neg hk]
    rw [hsum b.id, ← hbal b hb, if_neg (fun h => hk h.symm), add_zero]

theorem bal_updateBalance_two (accs : List Account) (txnsA txnsB : List Txn)
    (k1 k2 : Int) (d1 d2 : ℚ)
    (hbal : ∀ a ∈ accs, a.balance = txSum txnsA a.id)
    (hsum : ∀ j, txSum txnsB j =
      txSum txnsA j + (if k1 = j then d1 else 0) + (if k2 = j then d2 else 0)) :
    ∀ a ∈ updateBalance (updateBalance accs k1 d1) k2 d2,
      a.balance = txSum txnsB a.id := by
  intro a ha
  rcases mem_updateBalance ha with ⟨b, hb, hab⟩
  rcases mem_updateBalance hb with ⟨c, hc, hbc⟩
  subst hab
  subst hbc
  have hb' := hbal c hc
  have hs' := hsum c.id
  by_cases hk1 : c.id = k1
  · simp only [if_pos hk1]
    by_cases hk2 : c.id = k2
    · rw [if_pos (show ({ c with balance := c.balance + d1 } : Account).id = k2 from hk2)]
      show c.balance + d1 + d2 = txSum txnsB c.id
      rw [hs', ← hb', if_pos hk1.symm, if_pos hk2.symm]
    · rw [if_neg (show ¬ ({ c with balance := c.balance + d1 } : Account).id = k2 from hk2)]
      show c.balance + d1 = txSum txnsB c.id
      rw [hs', ← hb', if_pos hk1.symm, if_neg (fun h => hk2 h.symm), add_zero]
  · simp only [if_neg hk1]
    by_cases hk2 : c.id = k2
    · rw [if_pos hk2]
      show c.balance + d2 = txSum txnsB c.id
      rw [hs', ← hb', if_neg (fun h => hk1 h.symm), add_zero, if_pos hk2.symm]
    · rw [if_neg hk2]
      show c.balance = txSum txnsB c.id
      rw [hs', ← hb', if_neg (fun h => hk1 h.symm), if_neg (fun h => hk2 h.symm),
        add_zero, add_zero]

theorem nodup_ids_append_fresh {txns : List Txn} {t : Txn}
    (hnd : (txns.map Txn.id).Nodup) (hf : ∀ s ∈ txns, ¬ s.id = t.id) :
    ((txns ++ [t]).map Txn.id).Nodup := by
  rw [List.map_append]
  refine List.Nodup.append hnd (List.nodup_singleton _) ?_
  intro x hx hx2
  rcases List.mem_map.mp hx with ⟨s, hs, rfl⟩
  simp only [List.map_singleton, List.mem_singleton] at hx2
  exact hf s hs hx2

theorem txSum_append_singleton (txns : List Txn) (t : Txn) (j : Int) :
    txSum (txns ++ [t]) j = txSum txns j + (if t.account_id = j then t.amount else 0) := by
  rw [txSum_append, txSum_cons, txSum_nil, add_zero]

theorem WF_create_account_db (db : DB) (today name : String) (bal : ℚ)
    (curr : Option String) (hWF : WF db) (hsafe : bal = 0 ∨ eps < |bal|)
    {db2 : DB} {acc : Account}
    (h : create_account_db db today name bal curr = .ok (db2, acc)) : WF db2 := by
  have hacct0 : ∀ t ∈ db.txns, ¬ t.account_id = db.nextAccId := by
    intro t ht heq
    rcases hWF.txAcc t ht with ⟨a, ha, haid⟩
    have := hWF.freshAcc a ha
    omega
  have hsum0 : txSum db.txns db.nextAccId = 0 := txSum_eq_zero hacct0
  simp only [create_account_db] at h
  by_cases h1 : strTrim name = ""
  · rw [if_pos h1] at h
    exact Except.noConfusion h
  · rw [if_neg h1] at h
    by_cases h2 : (db.accounts.find?
        (fun a => sqlLower a.name = sqlLower (strTrim name))).isSome = true
    · rw [if_pos h2] at h
      exact Except.noConfusion h
    · rw [if_neg h2] at h
      by_cases h3 : eps < |bal|
      · rw [if_pos h3] at h
        cases h
        constructor
        · exact nodup_ids_append_fresh hWF.nodupTx
            (fun s hs => by have := hWF.freshTx s hs; simp; omega)
        · intro t ht
          rcases List.mem_append.mp ht with ht | ht
          · have := hWF.freshTx t ht
            simp only
            omega
          · simp only [List.mem_singleton] at ht
            subst ht
            simp only
            omega
        · intro a ha
          rcases List.mem_append.mp ha with ha | ha
          · have := hWF.freshAcc a ha
            simp only
            omega
          · simp only [List.mem_singleton] at ha
            subst ha
            simp only
            omega
        · intro t ht
          rcases List.mem_append.mp ht with ht | ht
          · rcases hWF.txAcc t ht with ⟨a, ha, haid⟩
            exact ⟨a, List.mem_append_left _ ha, haid⟩
          · simp only [List.mem_singleton] at ht
            subst ht
            exact ⟨⟨db.nextAccId, strTrim name, bal, curr⟩,
              List.mem_append_right _ (List.mem_singleton_self _), rfl⟩
        · intro a ha
          rcases List.mem_append.mp ha with ha | ha
          · rw [hWF.bal a ha, txSum_append_singleton]
            have hne : ¬ db.nextAccId = a.id := by
              have := hWF.freshAcc a ha
              omega
            simp only
            rw [if_neg hne, add_zero]
          · simp only [List.mem_singleton] at ha
            subst ha
            simp only
            rw [txSum_append_singleton, hsum0]
            simp
      · rw [if_neg h3] at h
        cases h
        have hbal0 : bal = 0 := by
          rcases hsafe with h0 | h0
          · exact h0
          · exact absurd h0 h3
        constructor
        · exact hWF.nodupTx
        · exact hWF.freshTx
        · intro a ha
          rcases List.mem_append.mp ha with ha | ha
          · have := hWF.freshAcc a ha
            simp only
            omega
          · simp only [List.mem_singleton] at ha
            subst ha
            simp only
            omega
        · intro t ht
          rcases hWF.txAcc t ht with ⟨a, ha, haid⟩
          exact ⟨a, List.mem_append_left _ ha, haid⟩
        · intro a ha
          rcases List.mem_append.mp ha with ha | ha
          · exact hWF.bal a ha
          · simp only [List.mem_singleton] at ha
            subst ha
            simp only
            rw [hsum0, hbal0]

theorem WF_create_transaction_db (db : DB) (args : CreateTransactionArgs)
    (hWF : WF db) (hsafe : ∃ a ∈ db.accounts, a.id = args.account_id)
    {db2 : DB} {row : Txn}
    (h : create_transaction_db db args = .ok (db2, row)) : WF db2 := by
  rcases hacc : db.accounts.find?
      (fun a => a.name = args.payee ∧ ¬ a.id = args.account_id) with _ | tgt
  · -- not a transfer: one row, one balance adjustment
    simp only [create_transaction_db, hacc] at h
    cases h
    constructor
    · exact nodup_ids_append_fresh hWF.nodupTx
        (fun s hs => by have := hWF.freshTx s hs; simp; omega)
    · intro t ht
      rcases List.mem_append.mp ht with ht | ht
      · have := hWF.freshTx t ht
        simp only
        omega
      · simp only [List.mem_singleton] at ht
        subst ht
        simp only
        omega
    · intro a ha
      rcases mem_updateBalance ha with ⟨b, hb, hab⟩
      have := hWF.freshAcc b hb
      by_cases hk : b.id = args.account_id <;> simp [hab, hk] <;> omega
    · intro t ht
      rcases List.mem_append.mp ht with ht | ht
      · rcases hWF.txAcc t ht with ⟨a, ha, haid⟩
        rcases exists_mem_updateBalance args.account_id args.amount ha with ⟨b, hb, hbid⟩
        exact ⟨b, hb, hbid.trans haid⟩
      · simp only [List.mem_singleton] at ht
        subst ht
        rcases hsafe with ⟨a, ha, haid⟩
        rcases exists_mem_updateBalance args.account_id args.amount ha with ⟨b, hb, hbid⟩
        exact ⟨b, hb, hbid.trans haid⟩
    · exact bal_updateBalance_one db.accounts db.txns _ args.account_id args.amount
        hWF.bal (fun j => txSum_append_singleton db.txns _ j)
  · -- transfer: two rows, two balance adjustments
    have hs : (db.accounts.find? (fun a => a.id = args.account_id)).isSome = true := by
      rw [List.find?_isSome]
      rcases hsafe with ⟨a, ha, haid⟩
      exact ⟨a, ha, by simp [haid]⟩
    rcases hsome : db.accounts.find? (fun a => a.id = args.account_id) with _ | src
    · rw [hsome] at hs
      cases hs
    · have htgtmem := List.mem_of_find?_eq_some hacc
      have hceq := create_transfer_eq db args tgt src hacc hsome hWF.freshTx
      rw [hceq] at h
      cases h
      have hassoc : ∀ (r1 r2 : Txn), db.txns ++ [r1, r2] = (db.txns ++ [r1]) ++ [r2] := by
        intro r1 r2
        simp
    
      constructor
      · rw [hassoc]
        refine nodup_ids_append_fresh ?_ ?_
        · exact nodup_ids_append_fresh hWF.nodupTx
            (fun s hs2 => by have := hWF.freshTx s hs2; simp; omega)
        · intro s hs2
          rcases List.mem_append.mp hs2 with hs2 | hs2
          · have := hWF.freshTx s hs2
            simp only
            omega
          · simp only [List.mem_singleton] at hs2
            subst hs2
            simp only
            omega
      · intro t ht
        rw [hassoc] at ht
        rcases List.mem_append.mp ht with ht | ht
        · rcases List.mem_append.mp ht with ht | ht
          · have := hWF.freshTx t ht
            simp only
            omega
          · simp only [List.mem_singleton] at ht
            subst ht
            simp only
            omega
        · simp only [List.mem_singleton] at ht
          subst ht
          simp only
          omega
      · intro a ha
        rcases mem_updateBalance ha with ⟨b, hb, hab⟩
        rcases mem_updateBalance hb with ⟨c, hc, hbc⟩
        have := hWF.freshAcc c hc
        have hbid : b.id = c.id := by
          by_cases hk : c.id = args.account_id <;> simp [hbc, hk]
        have haid : a.id = b.id := by
          by_cases hk : b.id = tgt.id <;> simp [hab, hk]
        simp only
        omega
      · intro t ht
        have himg : ∀ x ∈ db.accounts, ∃ b ∈ updateBalance
            (updateBalance db.accounts args.account_id args.amount) tgt.id (-args.amount),
            b.id = x.id := by
          intro x hx
          rcases exists_mem_updateBalance args.account_id args.amount hx with ⟨b, hb, hbid⟩
          rcases exists_mem_updateBalance tgt.id (-args.amount) hb with ⟨b2, hb2, hb2id⟩
          exact ⟨b2, hb2, hb2id.trans hbid⟩
        rw [hassoc] at ht
        rcases List.mem_append.mp ht with ht | ht
        · rcases List.mem_append.mp ht with ht | ht
          · rcases hWF.txAcc t ht with ⟨a, ha, haid⟩
            rcases himg a ha with ⟨b, hb, hbid⟩
            exact ⟨b, hb, hbid.trans haid⟩
          · simp only [List.mem_singleton] at ht
            subst ht
            rcases hsafe with ⟨a, ha, haid⟩
            rcases himg a ha with ⟨b, hb, hbid⟩
            exact ⟨b, hb, hbid.trans haid⟩
        · simp only [List.mem_singleton] at ht
          subst ht
          rcases himg tgt htgtmem with ⟨b, hb, hbid⟩
          exact ⟨b, hb, hbid⟩
      · refine bal_updateBalance_two db.accounts db.txns _ args.account_id tgt.id
          args.amount (-args.amount) hWF.bal ?_
        intro j
        rw [hassoc, txSum_append_singleton, txSum_append_singleton]

theorem WF_delete_transaction_db (db : DB) (i : Int) (hWF : WF db)
    {db2 : DB} (h : delete_transaction_db db i = .ok db2) : WF db2 := by
  rcases h0 : db.txns.find? (fun t => t.id = i) with _ | t0
  · simp only [delete_transaction_db, h0] at h
    exact Except.noConfusion h
  · have hmem : t0 ∈ db.txns := List.mem_of_find?_eq_some h0
    have hid : t0.id = i := by simpa using List.find?_some h0
    have hnd1 : ((eraseId db.txns i).map Txn.id).Nodup := nodup_ids_eraseId hWF.nodupTx
    have hsum1 : ∀ j, txSum (eraseId db.txns i) j =
        txSum db.txns j + (if t0.account_id = j then -t0.amount else 0) := by
      intro j
      rw [txSum_eraseId db.txns i j t0 hWF.nodupTx hmem hid]
      by_cases hj : t0.account_id = j <;> simp [hj] <;> ring
    have hbal1 : ∀ a ∈ updateBalance db.accounts t0.account_id (-t0.amount),
        a.balance = txSum (eraseId db.txns i) a.id :=
      bal_updateBalance_one db.accounts db.txns _ t0.account_id (-t0.amount)
        hWF.bal hsum1
    have himg1 : ∀ x ∈ db.accounts,
        ∃ b ∈ updateBalance db.accounts t0.account_id (-t0.amount), b.id = x.id :=
      fun x hx => exists_mem_updateBalance t0.account_id (-t0.amount) hx
    have hfreshA1 : ∀ a ∈ updateBalance db.accounts t0.account_id (-t0.amount),
        a.id < db.nextAccId := by
      intro a ha
      rcases mem_updateBalance ha with ⟨b, hb, hab⟩
      have := hWF.freshAcc b hb
      by_cases hk : b.id = t0.account_id <;> simp [hab, hk] <;> omega
    have hbase : WF ⟨updateBalance db.accounts t0.account_id (-t0.amount),
        eraseId db.txns i, db.nextAccId, db.nextTxId⟩ := by
      constructor
      · exact hnd1
      · intro t ht
        exact hWF.freshTx t (mem_eraseId ht).1
      · exact hfreshA1
      · intro t ht
        rcases hWF.txAcc t (mem_eraseId ht).1 with ⟨a, ha, haid⟩
        rcases himg1 a ha with ⟨b, hb, hbid⟩
        exact ⟨b, hb, hbid.trans haid⟩
      · exact hbal1
    have hstep2 : ∀ g ∈ eraseId db.txns i,
        WF ⟨updateBalance (updateBalance db.accounts t0.account_id (-t0.amount))
            g.account_id (-g.amount),
          eraseId (eraseId db.txns i) g.id, db.nextAccId, db.nextTxId⟩ := by
      intro g hg
      have hsum2 : ∀ j, txSum (eraseId (eraseId db.txns i) g.id) j =
          txSum (eraseId db.txns i) j + (if g.account_id = j then -g.amount else 0) := by
        intro j
        rw [txSum_eraseId (eraseId db.txns i) g.id j g hnd1 hg rfl]
        by_cases hj : g.account_id = j <;> simp [hj] <;> ring
      constructor
      · exact nodup_ids_eraseId hnd1
      · intro t ht
        exact hWF.freshTx t (mem_eraseId (mem_eraseId ht).1).1
      · intro a ha
        rcases mem_updateBalance ha with ⟨b, hb, hab⟩
        have := hfreshA1 b hb
        by_cases hk : b.id = g.account_id <;> simp [hab, hk] <;> omega
      · intro t ht
        rcases hWF.txAcc t (mem_eraseId (mem_eraseId ht).1).1 with ⟨a, ha, haid⟩
        rcases himg1 a ha with ⟨b, hb, hbid⟩
        rcases exists_mem_updateBalance g.account_id (-g.amount) hb with ⟨c, hc, hcid⟩
        exact ⟨c, hc, (hcid.trans hbid).trans haid⟩
      · exact bal_updateBalance_one _ (eraseId db.txns i) _ g.account_id (-g.amount)
          hbal1 hsum2
    rcases hl : t0.linked_tx_id with _ | lid
    · rcases hn : t0.notes with _ | n
      · simp only [delete_transaction_db, h0, hl, hn] at h
        cases h
        exact hbase
      · rcases hfb : (eraseId db.txns i).find?
            (fun t => t.notes = some n ∧ t.category = some "Transfer") with _ | f
        · simp only [delete_transaction_db, h0, hl, hn, hfb] at h
          cases h
          exact hbase
        · simp only [delete_transaction_db, h0, hl, hn, hfb] at h
          cases h
          exact hstep2 f (List.mem_of_find?_eq_some hfb)
    · rcases hctr : (eraseId db.txns i).find? (fun t => t.id = lid) with _ | ctr
      · simp only [delete_transaction_db, h0, hl, hctr] at h
        cases h
        exact hbase
      · simp only [delete_transaction_db, h0, hl, hctr] at h
        cases h
        have hcid : ctr.id = lid := by simpa using List.find?_some hctr
        rw [← hcid]
        exact hstep2 ctr (List.mem_of_find?_eq_some hctr)

theorem txSum_filter_account (txns : List Txn) (i j : Int) (hne : ¬ j = i) :
    txSum (txns.filter (fun t => ¬ t.account_id = i)) j = txSum txns j := by
  induction txns with
  | nil => rfl
  | cons t ts ih =>
    rw [txSum_cons, List.filter_cons]
    have ih2 : txSum (List.filter (fun t => !decide (t.account_id = i)) ts) j
        = txSum ts j := by
      simpa [decide_not] using ih
    by_cases hc : t.account_id = i
    · have hne2 : ¬ i = j := fun hj => hne hj.symm
      simp [hc, hne2, ih2]
    · simp [hc, ih2, txSum_cons]

theorem WF_delete_account_db (db : DB) (i : Int) (hWF : WF db)
    {db2 : DB} (h : delete_account_db db i = .ok db2) : WF db2 := by
  simp only [delete_account_db] at h
  cases h
  constructor
  · exact ((List.filter_sublist _).map Txn.id).nodup hWF.nodupTx
  · intro t ht
    exact hWF.freshTx t (List.mem_of_mem_filter ht)
  · intro a ha
    exact hWF.freshAcc a (List.mem_of_mem_filter ha)
  · intro t ht
    have htm := List.mem_of_mem_filter ht
    have htacc : ¬ t.account_id = i := by simpa using List.of_mem_filter ht
    rcases hWF.txAcc t htm with ⟨a, ha, haid⟩
    refine ⟨a, List.mem_filter.mpr ⟨ha, ?_⟩, haid⟩
    simpa [haid] using htacc
  · intro a ha
    have ham := List.mem_of_mem_filter ha
    have hane : ¬ a.id = i := by simpa using List.of_mem_filter ha
    rw [hWF.bal a ham, txSum_filter_account db.txns i a.id hane]

theorem fresh_of_ids {txns txnsB : List Txn} {n : Int}
    (hids : txnsB.map Txn.id = txns.map Txn.id)
    (hf : ∀ t ∈ txns, t.id < n) : ∀ t ∈ txnsB, t.id < n := by
  intro t ht
  have hmm : t.id ∈ txnsB.map Txn.id := List.mem_map_of_mem _ ht
  rw [hids] at hmm
  rcases List.mem_map.mp hmm with ⟨s, hs, hsid⟩
  rw [← hsid]
  exact hf s hs

theorem WF_update_phase2 (db : DB) (args : UpdateTransactionArgs)
    (txns1 : List Txn) (accs1 : List Account)
    (hids1 : txns1.map Txn.id = db.txns.map Txn.id)
    (hnd : (db.txns.map Txn.id).Nodup)
    (hfreshT : ∀ t ∈ db.txns, t.id < db.nextTxId)
    (hacct1 : ∀ t ∈ txns1, ∃ b ∈ accs1, b.id = t.account_id)
    (hfreshA : ∀ a ∈ accs1, a.id < db.nextAccId)
    (hbal1 : ∀ a ∈ accs1, a.balance = txSum txns1 a.id)
    (hS3 : (match resolveCounterpart txns1 args with
      | (none, _) => true
      | (some cid, txns2) =>
        match txns2.find? (fun t : Txn => t.id = cid) with
        | none => true
        | some ctr =>
          decide (-args.amount = ctr.amount ∨ eps < |-args.amount - ctr.amount|)) = true)
    {db2 : DB}
    (h : (match resolveCounterpart txns1 args with
      | (none, txns2) => Except.ok { db with txns := txns2, accounts := accs1 }
      | (some cid, txns2) =>
        match txns2.find? (fun t : Txn => t.id = cid) with
        | none => Except.ok { db with txns := txns2, accounts := accs1 }
        | some ctr =>
          match accs1.find? (fun a : Account => a.id = args.account_id) with
          | none => Except.error "Query returned no rows"
          | some src =>
            Except.ok { db with
              txns := mapIfId txns2 cid (applyCtrUpd args src.name (-args.amount)),
              accounts := if eps < |-args.amount - ctr.amount| then
                updateBalance accs1 ctr.account_id (-args.amount - ctr.amount)
              else accs1 }) = .ok db2) :
    WF db2 := by
  rcases hres : resolveCounterpart txns1 args with ⟨cOpt, txns2⟩
  rw [hres] at h hS3
  have hids2 : txns2.map Txn.id = txns1.map Txn.id := by
    have h2 := resolveCounterpart_snd_ids txns1 args
    rw [hres] at h2
    exact h2
  have hsum2 : ∀ j, txSum txns2 j = txSum txns1 j := by
    intro j
    have h2 := resolveCounterpart_snd_sum txns1 args j
    rw [hres] at h2
    exact h2
  have hacct2 : ∀ t ∈ txns2, ∃ s ∈ txns1, s.account_id = t.account_id := by
    intro t ht
    have h2 := resolveCounterpart_snd_acct txns1 args t
    rw [hres] at h2
    exact h2 ht
  have hbal2 : ∀ a ∈ accs1, a.balance = txSum txns2 a.id :=
    fun a ha => (hbal1 a ha).trans (hsum2 a.id).symm
  have hbaseWF : WF ⟨accs1, txns2, db.nextAccId, db.nextTxId⟩ := by
    constructor
    · rw [hids2, hids1]
      exact hnd
    · exact fresh_of_ids (hids2.trans hids1) hfreshT
    · exact hfreshA
    · intro t ht
      rcases hacct2 t ht with ⟨s, hs, hsa⟩
      rcases hacct1 s hs with ⟨b, hb, hbid⟩
      exact ⟨b, hb, hbid.trans hsa⟩
    · exact hbal2
  cases cOpt with
  | none =>
    cases h
    exact hbaseWF
  | some cid =>
    rcases hfc : txns2.find? (fun t => t.id = cid) with _ | ctr
    · simp only [hfc] at h
      cases h
      exact hbaseWF
    · simp only [hfc] at h hS3
      rcases hfs : accs1.find? (fun a => a.id = args.account_id) with _ | src
      · simp only [hfs] at h
        exact Except.noConfusion h
      · simp only [hfs] at h
        have hctrmem : ctr ∈ txns2 := List.mem_of_find?_eq_some hfc
        have hctrid : ctr.id = cid := by simpa using List.find?_some hfc
        have hnd2 : (txns2.map Txn.id).Nodup := by
          rw [hids2, hids1]
          exact hnd
        have hsum3 : ∀ j, txSum (mapIfId txns2 cid (applyCtrUpd args src.name (-args.amount))) j
            = txSum txns2 j + (if ctr.account_id = j then -args.amount - ctr.amount else 0) := by
          intro j
          rw [txSum_mapIfId txns2 cid j _ ctr hnd2 hctrmem hctrid]
          by_cases hj : ctr.account_id = j <;> simp [applyCtrUpd, hj] <;> ring
        have hids3 : (mapIfId txns2 cid (applyCtrUpd args src.name (-args.amount))).map Txn.id
            = txns2.map Txn.id := ids_mapIfId _ _ _ (fun t => rfl)
        have hacct3 : ∀ t ∈ mapIfId txns2 cid (applyCtrUpd args src.name (-args.amount)),
            ∃ s ∈ txns2, s.account_id = t.account_id :=
          fun t ht => mem_acct_mapIfId
            (f := applyCtrUpd args src.name (-args.amount)) (fun s => rfl) ht
        by_cases hcd : eps < |-args.amount - ctr.amount|
        · rw [if_pos hcd] at h
          cases h
          constructor
          · rw [hids3, hids2, hids1]
            exact hnd
          · exact fresh_of_ids ((hids3.trans hids2).trans hids1) hfreshT
          · intro a ha
            rcases mem_updateBalance ha with ⟨b, hb, hab⟩
            have := hfreshA b hb
            by_cases hk : b.id = ctr.account_id <;> simp [hab, hk] <;> omega
          · intro t ht
            rcases hacct3 t ht with ⟨s, hs, hsa⟩
            rcases hacct2 s hs with ⟨u, hu, hua⟩
            rcases hacct1 u hu with ⟨b, hb, hbid⟩
            rcases exists_mem_updateBalance ctr.account_id (-args.amount - ctr.amount) hb
              with ⟨c, hc, hcid2⟩
            exact ⟨c, hc, ((hcid2.trans hbid).trans hua).trans hsa⟩
          · exact bal_updateBalance_one accs1 txns2 _ ctr.account_id
              (-args.amount - ctr.amount) hbal2 hsum3
        · rw [if_neg hcd] at h
          cases h
          have hceq : -args.amount = ctr.amount :=
            (of_decide_eq_true hS3).resolve_right hcd
          have hsum3z : ∀ j, txSum (mapIfId txns2 cid
              (applyCtrUpd args src.name (-args.amount))) j = txSum txns2 j := by
            intro j
            rw [hsum3 j, hceq]
            by_cases hj : ctr.account_id = j <;> simp [hj]
          constructor
          · rw [hids3, hids2, hids1]
            exact hnd
          · exact fresh_of_ids ((hids3.trans hids2).trans hids1) hfreshT
          · exact hfreshA
          · intro t ht
            rcases hacct3 t ht with ⟨s, hs, hsa⟩
            rcases hacct2 s hs with ⟨u, hu, hua⟩
            rcases hacct1 u hu with ⟨b, hb, hbid⟩
            exact ⟨b, hb, (hbid.trans hua).trans hsa⟩
          · intro a ha
            rw [hbal2 a ha, hsum3z a.id]

theorem WF_update_transaction_db (db : DB) (args : UpdateTransactionArgs)
    (hWF : WF db) (hsafe : updSafeB db args = true)
    {db2 : DB} (h : update_transaction_db db args = .ok db2) : WF db2 := by
  rcases h0 : db.txns.find? (fun t => t.id = args.id) with _ | old
  · simp only [update_transaction_db, h0] at h
    exact Except.noConfusion h
  · have hmem : old ∈ db.txns := List.mem_of_find?_eq_some h0
    have hid : old.id = args.id := by simpa using List.find?_some h0
    simp only [updSafeB, h0] at hsafe
    rw [Bool.and_eq_true, Bool.and_eq_true] at hsafe
    obtain ⟨⟨hS1, hS2⟩, hS3⟩ := hsafe
    have hex : ∃ a ∈ db.accounts, a.id = args.account_id := by
      rw [List.any_eq_true] at hS1
      rcases hS1 with ⟨a, ha, hpa⟩
      exact ⟨a, ha, by simpa using hpa⟩
    have hS2p : ¬ old.account_id = args.account_id ∨ args.amount = old.amount
        ∨ eps < |args.amount - old.amount| := by
      simpa using hS2
    simp only [update_transaction_db, h0] at h
    have hids1 : (mapIfId db.txns args.id (applyUpd args)).map Txn.id
        = db.txns.map Txn.id := ids_mapIfId _ _ _ (fun t => rfl)
    have hsum1 : ∀ j, txSum (mapIfId db.txns args.id (applyUpd args)) j =
        txSum db.txns j - (if old.account_id = j then old.amount else 0)
          + (if args.account_id = j then args.amount else 0) := by
      intro j
      rw [txSum_mapIfId db.txns args.id j (applyUpd args) old hWF.nodupTx hmem hid]
      rfl
    have hacct1 : ∀ aset : List Account,
        (∀ x ∈ db.accounts, ∃ b ∈ aset, b.id = x.id) →
        ∀ t ∈ mapIfId db.txns args.id (applyUpd args), ∃ b ∈ aset, b.id = t.account_id := by
      intro aset hall t ht
      rcases mem_mapIfId ht with ⟨s, hs, hst⟩
      by_cases hc : s.id = args.id
      · rw [hst, if_pos hc]
        rcases hex with ⟨a, ha, haid⟩
        rcases hall a ha with ⟨b, hb, hbid⟩
        exact ⟨b, hb, hbid.trans haid⟩
      · rw [hst, if_neg hc]
        rcases hWF.txAcc s hs with ⟨a, ha, haid⟩
        rcases hall a ha with ⟨b, hb, hbid⟩
        exact ⟨b, hb, hbid.trans haid⟩
    by_cases hsame : old.account_id = args.account_id
    · by_cases hdiff : eps < |args.amount - old.amount|
      · rw [if_pos hsame, if_pos hdiff] at h
        refine WF_update_phase2 db args _ _ hids1 hWF.nodupTx hWF.freshTx
          (hacct1 _ (fun x hx =>
            exists_mem_updateBalance args.account_id (args.amount - old.amount) hx))
          ?_ ?_ hS3 h
        · intro a ha
          rcases mem_updateBalance ha with ⟨b, hb, hab⟩
          have := hWF.freshAcc b hb
          by_cases hk : b.id = args.account_id <;> simp [hab, hk] <;> omega
        · refine bal_updateBalance_one db.accounts db.txns _ args.account_id
            (args.amount - old.amount) hWF.bal ?_
          intro j
          rw [hsum1 j, hsame]
          by_cases hj : args.account_id = j <;> simp [hj] <;> ring
      · rw [if_pos hsame, if_neg hdiff] at h
        have hamt : args.amount = old.amount := by
          rcases hS2p with hc | hc | hc
          · exact absurd hsame hc
          · exact hc
          · exact absurd hc hdiff
        refine WF_update_phase2 db args _ _ hids1 hWF.nodupTx hWF.freshTx
          (hacct1 _ (fun x hx => ⟨x, hx, rfl⟩)) hWF.freshAcc ?_ hS3 h
        intro a ha
        rw [hWF.bal a ha, hsum1 a.id, hsame, hamt]
        by_cases hj : args.account_id = a.id <;> simp [hj]
    · rw [if_neg hsame] at h
      refine WF_update_phase2 db args _ _ hids1 hWF.nodupTx hWF.freshTx
        (hacct1 _ (fun x hx => by
          rcases exists_mem_updateBalance old.account_id (-old.amount) hx with ⟨b, hb, hbid⟩
          rcases exists_mem_updateBalance args.account_id args.amount hb with ⟨c, hc, hcid⟩
          exact ⟨c, hc, hcid.trans hbid⟩))
        ?_ ?_ hS3 h
      · intro a ha
        rcases mem_updateBalance ha with ⟨b, hb, hab⟩
        rcases mem_updateBalance hb with ⟨c, hc, hbc⟩
        have := hWF.freshAcc c hc
        have hbid : b.id = c.id := by
          by_cases hk : c.id = old.account_id <;> simp [hbc, hk]
        by_cases hk : b.id = args.account_id <;> simp [hab, hk] <;> omega
      · refine bal_updateBalance_two db.accounts db.txns _ old.account_id args.account_id
          (-old.amount) args.amount hWF.bal ?_
        intro j
        rw [hsum1 j]
        by_cases hj1 : old.account_id = j <;> by_cases hj2 : args.account_id = j <;>
          simp [hj1, hj2] <;> ring

theorem WF_step (db : DB) (op : Op) (hWF : WF db) (hsafe : opSafeB db op = true) :
    WF (step db op) := by
  cases op with
  | createAcc today name bal curr =>
    simp only [step]
    rcases hc : create_account_db db today name bal curr with e | ⟨dbX, acc⟩
    · exact hWF
    · exact WF_create_account_db db today name bal curr hWF
        (by simpa [opSafeB] using hsafe) hc
  | createTx args =>
    simp only [step]
    rcases hc : create_transaction_db db args with e | ⟨dbX, row⟩
    · exact hWF
    · refine WF_create_transaction_db db args hWF ?_ hc
      simp only [opSafeB, List.any_eq_true] at hsafe
      rcases hsafe with ⟨a, ha, hpa⟩
      exact ⟨a, ha, by simpa using hpa⟩
  | updateTx args =>
    simp only [step]
    rcases hc : update_transaction_db db args with e | dbX
    · exact hWF
    · exact WF_update_transaction_db db args hWF (by simpa [opSafeB] using hsafe) hc
  | deleteTx i =>
    simp only [step]
    rcases hc : delete_transaction_db db i with e | dbX
    · exact hWF
    · exact WF_delete_transaction_db db i hWF hc
  | deleteAcc i =>
    simp only [step]
    rcases hc : delete_account_db db i with e | dbX
    · exact hWF
    · exact WF_delete_account_db db i hWF hc

theorem WF_run (ops : List Op) : ∀ (db : DB), WF db → safeRun db ops = true →
    WF (run db ops) := by
  induction ops with
  | nil => exact fun db hWF _ => hWF
  | cons op ops ih =>
    intro db hWF hsafe
    rw [safeRun, Bool.and_eq_true] at hsafe
    exact ih (step db op) (WF_step db op hWF hsafe.1) hsafe.2

/-- C1 (amended): starting from the freshly initialized store, after any
sequence of account-create, transaction create/update/delete (moves included)
and account-delete operations in which every opening balance is zero or
exceeds `f64::EPSILON` in absolute value, every transaction create/update
references an existing account, and every update changes the row's amount and
the counterpart's amount either not at all or by more than `f64::EPSILON`,
every account's stored balance equals the sum of the amounts of the
transactions it owns. -/
theorem balance_invariant (ops : List Op) (hsafe : safeRun emptyDB ops = true) :
    balanceInv (run emptyDB ops) :=
  (WF_run ops emptyDB WF_emptyDB hsafe).bal

/-- C1 counterexample: starting from the empty store, create an account with
balance 0 and a transaction of amount 0; the invariant holds.  One further
update of that transaction to amount 2⁻⁵³ (below `f64::EPSILON`) overwrites
the row's amount but skips the balance adjustment, so the stored balance 0 no
longer equals the transaction sum 2⁻⁵³. -/
theorem balance_invariant_counterexample :
    balanceInv (run emptyDB
      [.createAcc "d" "A" 0 none,
       .createTx ⟨1, "d", "P", none, none, 0, none, none, none, none, none⟩]) ∧
    ¬ balanceInv (run emptyDB
      [.createAcc "d" "A" 0 none,
       .createTx ⟨1, "d", "P", none, none, 0, none, none, none, none, none⟩,
       .updateTx ⟨1, 1, "d", "P", none, none, 1 / 2 ^ 53, none⟩]) := by
  have ht : strTrim "A" = "A" := rfl
  have htne : ¬ ("A" : String) = "" := by decide
  have h1 : step emptyDB (.createAcc "d" "A" 0 none) = ⟨[⟨1, "A", 0, none⟩], [], 2, 1⟩ := by
    norm_num [step, create_account_db, ht, htne, eps, emptyDB, List.find?]
  have h2 : step (⟨[⟨1, "A", 0, none⟩], [], 2, 1⟩ : DB)
      (.createTx ⟨1, "d", "P", none, none, 0, none, none, none, none, none⟩) =
      ⟨[⟨1, "A", 0 + 0, none⟩],
       [⟨1, 1, "d", "P", none, none, 0, none, none, none, none, none, none⟩], 2, 2⟩ := by
    norm_num [step, create_transaction_db, updateBalance, List.find?]
  have h3 : step (⟨[⟨1, "A", 0 + 0, none⟩],
      [⟨1, 1, "d", "P", none, none, 0, none, none, none, none, none, none⟩], 2, 2⟩ : DB)
      (.updateTx ⟨1, 1, "d", "P", none, none, 1 / 2 ^ 53, none⟩) =
      ⟨[⟨1, "A", 0 + 0, none⟩],
       [⟨1, 1, "d", "P", none, none, 1 / 2 ^ 53, none, none, none, none, none, none⟩],
       2, 2⟩ := by
    have hd : |(1 / 9007199254740992 : ℚ)| ≤ eps := by
      rw [abs_of_pos (by norm_num)]
      norm_num [eps]
    norm_num [step, update_transaction_db, resolveCounterpart, applyUpd, mapIfId,
      updateBalance, hd, List.find?]
  constructor
  · rw [run, h1, run, h2, run]
    intro a ha
    simp only [List.mem_singleton] at ha
    subst ha
    norm_num [txSum]
  · rw [run, h1, run, h2, run, h3, run]
    intro hinv
    have hx := hinv ⟨1, "A", 0 + 0, none⟩ (by simp)
    norm_num [txSum] at hx

/-- C1 witness: a safe two-operation sequence (account with opening balance 0,
then a transaction of amount 5 on it) satisfies the balance invariant. -/
theorem balance_invariant_witness :
    balanceInv (run emptyDB
      [.createAcc "d" "A" 0 none,
       .createTx ⟨1, "d", "P", none, none, 5, none, none, none, none, none⟩]) :=
  balance_invariant _ (by
    have ht : strTrim "A" = "A" := rfl
    have htne : ¬ ("A" : String) = "" := by decide
    have hstep : step emptyDB (.createAcc "d" "A" 0 none)
        = ⟨[⟨1, "A", 0, none⟩], [], 2, 1⟩ := by
      norm_num [step, create_account_db, ht, htne, eps, emptyDB, List.find?]
    rw [safeRun, hstep, safeRun, safeRun]
    rw [Bool.and_eq_true, Bool.and_eq_true]
    refine ⟨?_, ?_, rfl⟩
    · norm_num [opSafeB, eps]
    · decide)
